import Mathlib

/-!
Verification development for the airdraw repository.

The drawing geometry (src/drawing.js, src/video.js), the rigid-body
registration layer (src/physics.js) and the network-sync layer (sync.js)
are shallowly embedded below.  JavaScript floating-point numbers are
idealised as real numbers; `THREE.Vector3` becomes the structure `V3`.
State held on JavaScript objects becomes explicit record state, and a
JavaScript exception escaping a handler is modelled by an `Option JsErr`
component of the result (mutations performed before the throw persist,
as they do in JavaScript).
-/

namespace Airdraw

noncomputable section

open Classical

/-! Vectors: the subset of the `THREE.Vector3` API used by the sources. -/

@[ext]
structure V3 where
  x : ℝ
  y : ℝ
  z : ℝ

instance : Inhabited V3 := ⟨⟨0, 0, 0⟩⟩

def V3.zero : V3 := ⟨0, 0, 0⟩

def V3.add (a b : V3) : V3 := ⟨a.x + b.x, a.y + b.y, a.z + b.z⟩

def V3.sub (a b : V3) : V3 := ⟨a.x - b.x, a.y - b.y, a.z - b.z⟩

def V3.smul (c : ℝ) (a : V3) : V3 := ⟨c * a.x, c * a.y, c * a.z⟩

def V3.dot (a b : V3) : ℝ := a.x * b.x + a.y * b.y + a.z * b.z

def V3.cross (a b : V3) : V3 :=
  ⟨a.y * b.z - a.z * b.y, a.z * b.x - a.x * b.z, a.x * b.y - a.y * b.x⟩

def V3.normSq (a : V3) : ℝ := a.x ^ 2 + a.y ^ 2 + a.z ^ 2

def V3.len (a : V3) : ℝ := Real.sqrt a.normSq

/-- `THREE.Vector3.distanceTo`. -/
def dist3 (a b : V3) : ℝ := (a.sub b).len

/-- `THREE.Vector3.normalize`, which divides by `length || 1`: the zero
vector is left unchanged. -/
def V3.normalize (v : V3) : V3 := if v.len = 0 then v else V3.smul (1 / v.len) v

/-- `THREE.Vector3.lerp`: `this += (v - this) * alpha`, componentwise. -/
def V3.lerp (a b : V3) (alpha : ℝ) : V3 := a.add (V3.smul alpha (b.sub a))

theorem V3.normSq_nonneg (a : V3) : 0 ≤ a.normSq := by
  unfold V3.normSq; positivity

theorem V3.len_nonneg (a : V3) : 0 ≤ a.len := Real.sqrt_nonneg _

theorem dist3_nonneg (a b : V3) : 0 ≤ dist3 a b := Real.sqrt_nonneg _

/-!
StrokeRecorder (src/drawing.js; src/video.js `_endStroke` carries the same
geometry).  Scene membership of meshes is tracked as a list of mesh ids.
-/

structure Stroke where
  meshId : Option ℕ
  points : List V3
  color : String
  id : Option String
  isRing : Bool
  center : Option V3
  radius : ℝ

inductive StrokeEvent where
  | cancel (id : Option String)
  | complete (s : Stroke)

structure RecState where
  activePoints : List V3
  activeStrokeId : Option String
  activeMeshId : Option ℕ
  completedStrokes : List Stroke
  sceneMeshes : List ℕ
  nextMeshId : ℕ
  colorHex : String
  tubeRadius : ℝ

/-- `this.scene.remove(this.activeMesh)` when an active mesh exists. -/
def removeMesh (scene : List ℕ) (m : Option ℕ) : List ℕ :=
  match m with
  | none => scene
  | some i => scene.filter (fun j => j ≠ i)

/-- Step 1 of ring autocompletion: `center.add(p)` over all points, then
`center.divideScalar(n)`. -/
def centroid (ps : List V3) : V3 :=
  V3.smul (1 / (ps.length : ℝ)) (ps.foldl V3.add V3.zero)

/-- Step 2: `radius += p.distanceTo(center)` over all points, then
`radius /= n`. -/
def meanRadius (ps : List V3) (c : V3) : ℝ :=
  (ps.foldl (fun acc p => acc + dist3 p c) 0) / (ps.length : ℝ)

/-- Step 3 accumulation: `normal.add(cross(ps[i]-center, ps[i+1]-center))`
for `i = 0 .. n-2`. -/
def crossSum (ps : List V3) (c : V3) : V3 :=
  ((ps.zip ps.tail).map (fun ab => V3.cross (ab.1.sub c) (ab.2.sub c))).foldl
    V3.add V3.zero

/-- Step 3: normalize the accumulated normal, then fall back to `(0,0,1)`
when `normal.lengthSq() < 0.001` (which, after `normalize`, happens exactly
when the accumulated vector was zero). -/
def fitNormal (ps : List V3) (c : V3) : V3 :=
  let n := (crossSum ps c).normalize
  if n.normSq < 0.001 then ⟨0, 0, 1⟩ else n

/-- Step 4: `up = (0,1,0)`, replaced by `(1,0,0)` when
`|normal.dot(up)| > 0.99`. -/
def upFor (n : V3) : V3 :=
  if |n.dot ⟨0, 1, 0⟩| > 0.99 then ⟨1, 0, 0⟩ else ⟨0, 1, 0⟩

def tangentOf (n : V3) : V3 := (V3.cross n (upFor n)).normalize

def bitangentOf (n : V3) : V3 := (V3.cross n (tangentOf n)).normalize

def circleSegments : ℕ := 48

/-- Step 5: one resampled circle point,
`center + tangent*(cos θ * r) + bitangent*(sin θ * r)` at
`θ = (i / 48) * 2π`. -/
def circlePoint (c : V3) (r : ℝ) (t b : V3) (i : ℕ) : V3 :=
  let angle : ℝ := ((i : ℝ) / (circleSegments : ℝ)) * (2 * Real.pi)
  (c.add (V3.smul (Real.cos angle * r) t)).add (V3.smul (Real.sin angle * r) b)

/-- Step 5: the loop `for i in 0..=48` collecting circle points. -/
def circlePoints (c : V3) (r : ℝ) (t b : V3) : List V3 :=
  (List.range (circleSegments + 1)).map (circlePoint c r t b)

/-- The ring test of `endStroke`:
`start.distanceTo(end) < 0.10 && activePoints.length >= 6`. -/
def ringCond (ps : List V3) : Prop :=
  dist3 ps.headI ps.getLastI < 0.10 ∧ 6 ≤ ps.length

/-- `StrokeRecorder.endStroke` of src/drawing.js (lines 159-265). -/
def endStroke (s : RecState) : RecState × StrokeEvent :=
  if s.activePoints.length < 3 then
    ({ s with
        activePoints := []
        activeStrokeId := none
        activeMeshId := none
        sceneMeshes := removeMesh s.sceneMeshes s.activeMeshId },
      StrokeEvent.cancel s.activeStrokeId)
  else if ringCond s.activePoints then
    let c := centroid s.activePoints
    let r := meanRadius s.activePoints c
    let n := fitNormal s.activePoints c
    let t := tangentOf n
    let b := bitangentOf n
    let pts := circlePoints c r t b
    -- the active mesh is removed, rebuilt as a closed tube and re-added;
    -- a fresh mesh is created when no active mesh existed
    let meshId := s.activeMeshId.getD s.nextMeshId
    let stroke : Stroke :=
      { meshId := some meshId, points := pts, color := s.colorHex,
        id := s.activeStrokeId, isRing := true, center := some c, radius := r }
    ({ s with
        activePoints := []
        activeStrokeId := none
        activeMeshId := none
        completedStrokes := s.completedStrokes ++ [stroke]
        sceneMeshes := removeMesh s.sceneMeshes s.activeMeshId ++ [meshId]
        nextMeshId := s.nextMeshId + 1 },
      StrokeEvent.complete stroke)
  else
    let stroke : Stroke :=
      { meshId := s.activeMeshId, points := s.activePoints, color := s.colorHex,
        id := s.activeStrokeId, isRing := false, center := none, radius := 0 }
    ({ s with
        activePoints := []
        activeStrokeId := none
        activeMeshId := none
        completedStrokes := s.completedStrokes ++ [stroke] },
      StrokeEvent.complete stroke)

/-!
PhysicsWorld (src/physics.js).  The Rapier body descriptors are captured
by `BodyDesc`; the tracked-body table `this.bodies` (a JS `Map`, ordered
by insertion with replacement in place) is an association list; the
`this.joints` array and the world's impulse joints are both tracked.
-/

structure Quat where
  x : ℝ
  y : ℝ
  z : ℝ
  w : ℝ

structure BodyDesc where
  isFixed : Bool
  translation : V3
  linearDamping : ℝ
  angularDamping : ℝ
  ccdEnabled : Bool
  rotation : Option Quat

structure ColliderSpec where
  ballRadius : ℝ
  offset : V3
  restitution : ℝ
  friction : ℝ
  density : ℝ
  collisionGroups : ℕ

structure RingEntry where
  desc : BodyDesc
  colliders : List ColliderSpec
  center : V3
  radius : ℝ
  tubeRadius : ℝ
  meshRef : Option ℕ
  isFirst : Bool
  isDemoTorus : Bool
  isPrimitive : Bool

structure JointData where
  anchor1 : V3
  anchor2 : V3

structure ImpulseJoint where
  data : JointData
  parentId : String
  childId : String

structure PhysicsWorld where
  initialized : Bool
  bodies : List (String × RingEntry)
  joints : List JointData
  impulseJoints : List ImpulseJoint
  ringCount : ℕ

/-- A freshly constructed `PhysicsWorld` (its constructor). -/
def PhysicsWorld.fresh : PhysicsWorld :=
  { initialized := false, bodies := [], joints := [], impulseJoints := [],
    ringCount := 0 }

/-- JS `Map.prototype.get`. -/
def mapGet {κ α : Type} [DecidableEq κ] (m : List (κ × α)) (k : κ) : Option α :=
  (m.find? (fun p => p.1 = k)).map (fun p => p.2)

/-- JS `Map.prototype.set`: replace in place if the key is present,
append otherwise. -/
def mapSet {κ α : Type} [DecidableEq κ] (m : List (κ × α)) (k : κ) (v : α) :
    List (κ × α) :=
  if m.any (fun p => p.1 = k) then
    m.map (fun p => if p.1 = k then (k, v) else p)
  else m ++ [(k, v)]

/-- The demo-column regex of `tryLinkToNearest` (anchored
`demo-ring-`, one or more digits, dash): a match requires the literal
prefix, then one or more digits, then a dash; the captured group is the
digit run. -/
def demoColOf (s : String) : Option String :=
  let pre := "demo-ring-".toList
  let cs := s.toList
  if pre.isPrefixOf cs then
    let rest := cs.drop pre.length
    let digs := rest.takeWhile (fun ch => ch.isDigit)
    if digs ≠ [] ∧ (rest.drop digs.length).head? = some '-' then
      some (String.mk digs)
    else none
  else none

/-- Column filtering of `tryLinkToNearest`: an entry is skipped exactly
when the child id carries a demo column tag and the entry id carries a
different one. -/
def colOk (childId entryId : String) : Prop :=
  match demoColOf childId with
  | none => True
  | some c =>
    match demoColOf entryId with
    | none => True
    | some c2 => c2 = c

/-- One iteration of the scan loop of `tryLinkToNearest`: an entry wins
if it is not the child, not a primitive, passes column filtering, and is
strictly closer than both its own capture radius
`(entry.radius + childRadius) * 5` and the best so far (`nearestDist`
starts at Infinity, the accumulator at `none`). -/
def scanStep (childId : String) (childCenter : V3) (childRadius : ℝ)
    (acc : Option (String × ℝ)) (p : String × RingEntry) :
    Option (String × ℝ) :=
  if p.1 = childId ∨ p.2.isPrimitive then acc
  else if colOk childId p.1 then
    let d := dist3 p.2.center childCenter
    if d < (p.2.radius + childRadius) * 5 ∧
        (match acc with | none => True | some a => d < a.2) then
      some (p.1, d)
    else acc
  else acc

/-- The scan loop of `tryLinkToNearest`. -/
def nearestScan (bodies : List (String × RingEntry)) (childId : String)
    (childCenter : V3) (childRadius : ℝ) : Option (String × ℝ) :=
  bodies.foldl (scanStep childId childCenter childRadius) none

/-- `PhysicsWorld.linkRings` (src/physics.js lines 168-192): a spherical
joint from the parent's inner-bottom point `(0, -(r_p - tube_p), 0)` to
the child's inner-top point `(0, r_c - tube_c, 0)`. -/
def linkRings (w : PhysicsWorld) (parentId childId : String) : PhysicsWorld :=
  match mapGet w.bodies parentId, mapGet w.bodies childId with
  | some parent, some child =>
    let jd : JointData :=
      { anchor1 := ⟨0, -(parent.radius - parent.tubeRadius), 0⟩,
        anchor2 := ⟨0, child.radius - child.tubeRadius, 0⟩ }
    { w with
        impulseJoints := w.impulseJoints ++ [⟨jd, parentId, childId⟩]
        joints := w.joints ++ [jd] }
  | _, _ => w

/-- `PhysicsWorld.tryLinkToNearest` (src/physics.js lines 135-160). -/
def tryLinkToNearest (w : PhysicsWorld) (childId : String) (childCenter : V3)
    (childRadius : ℝ) : PhysicsWorld :=
  match nearestScan w.bodies childId childCenter childRadius with
  | none => w
  | some nearest =>
    -- `if (nearestId) this.linkRings(nearestId, childId)`: nearestId is a
    -- string, so the guard is falsy both for null (no winner) and for the
    -- empty-string key
    if nearest.1.isEmpty then w else linkRings w nearest.1 childId

def RING_GROUP : ℕ := 0x0001 * 65536 + 0x0002

/-- The 12 spherical colliders arranged around the ring circle. -/
def ringColliders (radius tubeRadius : ℝ) : List ColliderSpec :=
  (List.range 12).map (fun i =>
    let a : ℝ := ((i : ℝ) / 12) * (2 * Real.pi)
    { ballRadius := tubeRadius,
      offset := ⟨Real.cos a * radius, Real.sin a * radius, 0⟩,
      restitution := 0, friction := 0.3, density := 5, collisionGroups := RING_GROUP })

/-- The body descriptor built by `addRing`: `RigidBodyDesc.fixed()` for
an anchor, `RigidBodyDesc.dynamic()` with damping 1.5 / 1.5 and CCD for
the rest. -/
def addRingDesc (shouldFix : Bool) (center : V3) (rotation : Option Quat) :
    BodyDesc :=
  if shouldFix then
    { isFixed := true, translation := center, linearDamping := 0,
      angularDamping := 0, ccdEnabled := false, rotation := rotation }
  else
    { isFixed := false, translation := center, linearDamping := 1.5,
      angularDamping := 1.5, ccdEnabled := true, rotation := rotation }

/-- The table entry stored by `addRing`. -/
def addRingEntry (shouldFix : Bool) (center : V3) (radius : ℝ)
    (meshRef : Option ℕ) (rotation : Option Quat) (tubeRadius : ℝ) :
    RingEntry :=
  { desc := addRingDesc shouldFix center rotation,
    colliders := ringColliders radius tubeRadius,
    center := center, radius := radius, tubeRadius := tubeRadius,
    meshRef := meshRef, isFirst := shouldFix,
    isDemoTorus := rotation.isSome, isPrimitive := false }

/-- `PhysicsWorld.addRing` (src/physics.js lines 48-94). -/
def addRing (w : PhysicsWorld) (strokeId : String) (center : V3) (radius : ℝ)
    (meshRef : Option ℕ) (rotation : Option Quat) (tubeRadius : ℝ)
    (isFixed : Bool) : PhysicsWorld :=
  if w.initialized then
    let shouldFix := isFixed || w.ringCount == 0
    let w1 := { w with ringCount := w.ringCount + 1 }
    let entry := addRingEntry shouldFix center radius meshRef rotation tubeRadius
    let w2 := { w1 with bodies := mapSet w1.bodies strokeId entry }
    if shouldFix then w2 else tryLinkToNearest w2 strokeId center radius
  else w

/-- `PhysicsWorld.addPrimitive` (src/physics.js lines 96-133); collider
construction is irrelevant to the claims and represented by the empty
collider list. -/
def addPrimitive (w : PhysicsWorld) (strokeId : String) (position : V3)
    (size : ℝ) (meshRef : Option ℕ) : PhysicsWorld :=
  if w.initialized then
    let desc : BodyDesc :=
      { isFixed := false, translation := position, linearDamping := 0.5,
        angularDamping := 0.5, ccdEnabled := false, rotation := none }
    let entry : RingEntry :=
      { desc := desc, colliders := [], center := position, radius := size / 2,
        tubeRadius := 0, meshRef := meshRef, isFirst := false,
        isDemoTorus := false, isPrimitive := true }
    { w with bodies := mapSet w.bodies strokeId entry }
  else w

/-- `PhysicsWorld.removeRing`: `removeRigidBody` detaches the body's
joints from the world, and the entry leaves the table. -/
def removeRing (w : PhysicsWorld) (id : String) : PhysicsWorld :=
  match mapGet w.bodies id with
  | none => w
  | some _ =>
    { w with
        bodies := w.bodies.filter (fun p => p.1 ≠ id)
        impulseJoints :=
          w.impulseJoints.filter (fun j => j.parentId ≠ id ∧ j.childId ≠ id) }

/-- `PhysicsWorld.clear` (src/physics.js lines 263-268): every tracked
body is removed from the world (taking its attached impulse joints with
it), the table and joint list are emptied, and the anchor counter is
reset. -/
def clear (w : PhysicsWorld) : PhysicsWorld :=
  { w with
      bodies := []
      joints := []
      impulseJoints :=
        w.impulseJoints.filter (fun j =>
          ¬ w.bodies.any (fun p => p.1 = j.parentId) ∧
          ¬ w.bodies.any (fun p => p.1 = j.childId))
      ringCount := 0 }

/-!
DrawingSync (sync.js).  Incoming `app-message` payloads are arbitrary JS
objects, modelled by a record of optional fields; an absent field is
`none`.  A JS exception escaping `handleMessage` (`TypeError` from
indexing an `undefined` field) is the `Option JsErr` component of the
result; mutations made before the throw persist.  `THREE.Vector3` /
`THREE.Quaternion` constructors default missing components to `0`
(and `w` to `1`).
-/

/-- A JS string slot that may be `undefined`. -/
abbrev JsStr := Option String

/-- JS truthiness of a string slot: `undefined` and the empty string are
falsy. -/
def truthyStr (s : JsStr) : Bool :=
  match s with
  | none => false
  | some str => !str.isEmpty

inductive JsErr where
  | typeErr

structure SyncBody where
  id : JsStr
  pos : Option (List ℝ)
  rot : Option (List ℝ)

/-- The wire message: a flat object with optional fields.  `scale` is a
triple for `object:transform` and a scalar for `primitive:create`; the
two uses are split into `scale3` and `scaleN`. -/
structure Msg where
  type : JsStr := none
  id : JsStr := none
  point : Option (List ℝ) := none
  color : JsStr := none
  radius : Option ℝ := none
  points : Option (List (List ℝ)) := none
  isRing : Option Bool := none
  center : Option (List ℝ) := none
  bodies : Option (List SyncBody) := none
  position : Option (List ℝ) := none
  pos : Option (List ℝ) := none
  rot : Option (List ℝ) := none
  scale3 : Option (List ℝ) := none
  scaleN : Option ℝ := none
  primitiveType : JsStr := none
  enabled : Option Bool := none
  t : Option ℝ := none

/-- `new THREE.Vector3(a[0], a[1], a[2])` on a present array: missing
components default to 0. -/
def v3FromArr (a : List ℝ) : V3 := ⟨a.getD 0 0, a.getD 1 0, a.getD 2 0⟩

/-- `new THREE.Quaternion(a[0], a[1], a[2], a[3])`: `w` defaults to 1. -/
def quatFromArr (a : List ℝ) : Quat :=
  ⟨a.getD 0 0, a.getD 1 0, a.getD 2 0, a.getD 3 1⟩

structure Target where
  pos : V3
  rot : Quat

structure Pose where
  pos : List ℝ
  rot : List ℝ

/-- A remote stroke entry held by the recorder (video.js). -/
structure RemoteStroke where
  points : List V3
  hasMesh : Bool
  color : JsStr
  radius : Option ℝ
  id : JsStr

/-- A completed stroke as seen through `handleMessage` (id, mesh and its
manually set transform; geometry lives in the recorder model above). -/
structure SLite where
  id : JsStr
  hasMesh : Bool
  isRing : Bool
  isPrimitive : Bool
  meshPos : Option (List ℝ)
  meshRot : Option (List ℝ)
  meshScale : Option (List ℝ)

structure DrawerLite where
  completedStrokes : List SLite
  remoteStrokes : List (JsStr × RemoteStroke)
  tubeRadius : ℝ
  nextUuid : ℕ

/-- `StrokeRecorder.updateRemoteActiveStroke` (video.js lines 644-680):
a missing entry is created and stored first; then
`new THREE.Vector3(point[0], ...)` throws a TypeError when `point` is
`undefined` — the freshly stored empty entry survives the throw. -/
def updateRemoteActiveStroke (d : DrawerLite) (strokeId : JsStr)
    (point : Option (List ℝ)) (color : JsStr) (radius : Option ℝ) :
    DrawerLite × Option JsErr :=
  let remote :=
    match mapGet d.remoteStrokes strokeId with
    | some r => r
    | none =>
      { points := [], hasMesh := false, color := color,
        radius := some (radius.getD d.tubeRadius), id := strokeId }
  let d1 := { d with remoteStrokes := mapSet d.remoteStrokes strokeId remote }
  match point with
  | none => (d1, some JsErr.typeErr)
  | some arr =>
    let r1 := { remote with points := remote.points ++ [v3FromArr arr] }
    if r1.points.length < 2 then
      ({ d1 with remoteStrokes := mapSet d1.remoteStrokes strokeId r1 }, none)
    else
      ({ d1 with
          remoteStrokes :=
            mapSet d1.remoteStrokes strokeId { r1 with hasMesh := true } },
        none)

/-- `StrokeRecorder.cancelRemoteActiveStroke`. -/
def cancelRemoteActiveStroke (d : DrawerLite) (strokeId : JsStr) : DrawerLite :=
  { d with remoteStrokes := (d.remoteStrokes).filter (fun p => p.1 ≠ strokeId) }

/-- `StrokeRecorder.addRemoteStroke` (video.js lines 606-642):
`strokeData.points.map(...)` throws when `points` is `undefined`; fewer
than 2 points returns `undefined` with no stroke added; otherwise the
stroke joins the completed collection and the remote map. -/
def addRemoteStroke (d : DrawerLite) (m : Msg) :
    DrawerLite × Option SLite × Option JsErr :=
  match m.points with
  | none => (d, none, some JsErr.typeErr)
  | some ptArrs =>
    let points := ptArrs.map v3FromArr
    if points.length < 2 then (d, none, none)
    else
      let stroke : SLite :=
        { id := m.id, hasMesh := true, isRing := m.isRing.getD false,
          isPrimitive := false, meshPos := none, meshRot := none,
          meshScale := none }
      let rs : RemoteStroke :=
        { points := points, hasMesh := true, color := m.color,
          radius := m.radius, id := m.id }
      ({ d with
          completedStrokes := d.completedStrokes ++ [stroke]
          remoteStrokes := mapSet d.remoteStrokes m.id rs },
        some stroke, none)

/-- `StrokeRecorder.removeStrokeById`: drop the first completed stroke
with the given id. -/
def removeStrokeById (d : DrawerLite) (strokeId : JsStr) : DrawerLite :=
  match d.completedStrokes.findIdx? (fun st => st.id = strokeId) with
  | none => d
  | some i => { d with completedStrokes := d.completedStrokes.eraseIdx i }

/-- `StrokeRecorder.clearAll` as seen by the sync layer. -/
def drawerClearAll (d : DrawerLite) : DrawerLite :=
  { d with completedStrokes := [], remoteStrokes := [] }

/-- `StrokeRecorder.addPrimitive`: always returns a fresh stroke. -/
def drawerAddPrimitive (d : DrawerLite) : DrawerLite × SLite :=
  let stroke : SLite :=
    { id := some (toString d.nextUuid), hasMesh := true, isRing := false,
      isPrimitive := true, meshPos := none, meshRot := none, meshScale := none }
  ({ d with
      completedStrokes := d.completedStrokes ++ [stroke]
      nextUuid := d.nextUuid + 1 },
    stroke)

/-- Replace the first completed stroke satisfying the predicate (JS
`find` hands back a reference that is then mutated). -/
def replaceFirst (l : List SLite) (p : SLite → Bool) (v : SLite) : List SLite :=
  match l with
  | [] => []
  | a :: rest => if p a then v :: rest else a :: replaceFirst rest p v

/-- A physics mutator invocation made by `handleMessage` (the
`PhysicsWorld` itself is embedded separately above). -/
inductive PhysCall where
  | addRing (id : JsStr) (center : List ℝ) (radius : Option ℝ)
  | addPrimitive (primitiveType : JsStr) (position : List ℝ) (scale : Option ℝ)
  | removeRing (id : JsStr)
  | clear
  | setEnabled (b : Option Bool)
  | setGravityEnabled (b : Option Bool)

/-- Module-level and instance state of the sync layer: `isHost`,
`this._lerpTargets`, the module map `peerPoses`, the recorder reference
and the trace of physics calls. -/
structure SyncSt where
  isHost : Bool
  lerpTargets : List (JsStr × Target)
  peerPoses : List (JsStr × Pose)
  drawer : Option DrawerLite
  physTrace : List PhysCall

/-- Whether a physics object was passed and whether its world finished
`init()` (the first guard of `PhysicsWorld.addRing`). -/
structure SyncCfg where
  hasPhysics : Bool
  physInitialized : Bool

/-- The `physics:sync` body loop: each body needs `pos` then `rot`
indexed, throwing on an absent array; targets updated so far survive the
throw. -/
def applyBodies (tg : List (JsStr × Target)) :
    List SyncBody → List (JsStr × Target) × Option JsErr
  | [] => (tg, none)
  | b :: rest =>
    match b.pos with
    | none => (tg, some JsErr.typeErr)
    | some parr =>
      match b.rot with
      | none => (tg, some JsErr.typeErr)
      | some rarr =>
        applyBodies (mapSet tg b.id ⟨v3FromArr parr, quatFromArr rarr⟩) rest

/-- The `physics:sync` branch: demote first (`isHost && data.bodies`),
then, when not host and bodies are present, update the lerp targets. -/
def physicsSyncBranch (s : SyncSt) (m : Msg) : SyncSt × Option JsErr :=
  let s1 := if s.isHost && m.bodies.isSome then { s with isHost := false } else s
  if !s1.isHost && m.bodies.isSome then
    match m.bodies with
    | none => (s1, none)
    | some bs =>
      let r := applyBodies s1.lerpTargets bs
      ({ s1 with lerpTargets := r.1 }, r.2)
  else (s1, none)

/-- The `object:transform` branch: requires a truthy id, a found stroke
with a mesh; then `data.pos[0]` / `data.rot[0]` throw when the fields are
absent; `data.scale` is applied only when present. -/
def objectTransformBranch (s : SyncSt) (d : DrawerLite) (m : Msg) :
    SyncSt × Option JsErr :=
  if truthyStr m.id then
    match d.completedStrokes.find? (fun st => st.id = m.id) with
    | none => (s, none)
    | some st =>
      if st.hasMesh then
        match m.pos with
        | none => (s, some JsErr.typeErr)
        | some parr =>
          match m.rot with
          | none => (s, some JsErr.typeErr)
          | some rarr =>
            let st1 :=
              { st with
                  meshPos := some parr
                  meshRot := some rarr
                  meshScale :=
                    if m.scale3.isSome then m.scale3 else st.meshScale }
            ({ s with
                drawer := some
                  { d with
                      completedStrokes :=
                        replaceFirst d.completedStrokes
                          (fun x => x.id = m.id) st1 } },
              none)
      else (s, none)
  else (s, none)

/-- The `stroke:complete` branch: cancel the remote preview, add the
stroke, then register a ring body when `data.isRing` is truthy and a
physics world is present — `PhysicsWorld.addRing` indexes
`data.center[0]` after its `initialized` guard, so an absent `center`
throws only on an initialized world. -/
def strokeCompleteBranch (cfg : SyncCfg) (s : SyncSt) (d : DrawerLite)
    (m : Msg) : SyncSt × Option JsErr :=
  let d1 := cancelRemoteActiveStroke d m.id
  let r := addRemoteStroke d1 m
  match r.2.2 with
  | some e => ({ s with drawer := some r.1 }, some e)
  | none =>
    match r.2.1 with
    | none => ({ s with drawer := some r.1 }, none)
    | some _ =>
      if m.isRing.getD false && cfg.hasPhysics then
        if cfg.physInitialized then
          match m.center with
          | none => ({ s with drawer := some r.1 }, some JsErr.typeErr)
          | some carr =>
            ({ s with
                drawer := some r.1
                physTrace := s.physTrace ++ [PhysCall.addRing m.id carr m.radius] },
              none)
        else ({ s with drawer := some r.1 }, none)
      else ({ s with drawer := some r.1 }, none)

/-- The `switch (data.type)` of `DrawingSync.handleMessage` (sync.js
lines 598-696). -/
def dispatchMessage (cfg : SyncCfg) (s : SyncSt) (m : Msg)
    (fromId : JsStr) (ty : String) : SyncSt × Option JsErr :=
  if ty = "stroke:start" then (s, none)
  else if ty = "stroke:point" then
    match s.drawer with
    | none => (s, none)
    | some d =>
      let r := updateRemoteActiveStroke d m.id m.point m.color m.radius
      ({ s with drawer := some r.1 }, r.2)
  else if ty = "stroke:complete" then
    match s.drawer with
    | none => (s, none)
    | some d => strokeCompleteBranch cfg s d m
  else if ty = "stroke:cancel" then
    match s.drawer with
    | none => (s, none)
    | some d => ({ s with drawer := some (cancelRemoteActiveStroke d m.id) }, none)
  else if ty = "stroke:undo" then
    match s.drawer with
    | none => (s, none)
    | some d =>
      if truthyStr m.id then
        ({ s with
            drawer := some (removeStrokeById d m.id)
            physTrace :=
              if cfg.hasPhysics then s.physTrace ++ [PhysCall.removeRing m.id]
              else s.physTrace },
          none)
      else (s, none)
  else if ty = "stroke:clear" then
    ({ s with
        drawer := s.drawer.map drawerClearAll
        physTrace :=
          if cfg.hasPhysics then s.physTrace ++ [PhysCall.clear]
          else s.physTrace
        lerpTargets := [] },
      none)
  else if ty = "physics:sync" then physicsSyncBranch s m
  else if ty = "primitive:create" then
    match s.drawer with
    | none => (s, none)
    | some d =>
      match m.position with
      | none => (s, some JsErr.typeErr)
      | some parr =>
        let r := drawerAddPrimitive d
        ({ s with
            drawer := some r.1
            physTrace :=
              if cfg.hasPhysics then
                s.physTrace ++
                  [PhysCall.addPrimitive m.primitiveType parr m.scaleN]
              else s.physTrace },
          none)
  else if ty = "object:transform" then
    match s.drawer with
    | none => (s, none)
    | some d => objectTransformBranch s d m
  else if ty = "toggle:physics" then
    if cfg.hasPhysics then
      ({ s with physTrace := s.physTrace ++ [PhysCall.setEnabled m.enabled] },
        none)
    else (s, none)
  else if ty = "toggle:gravity" then
    if cfg.hasPhysics then
      ({ s with
          physTrace := s.physTrace ++ [PhysCall.setGravityEnabled m.enabled] },
        none)
    else (s, none)
  else if ty = "user:pose" then
    if m.pos.isSome && m.rot.isSome && truthyStr fromId then
      ({ s with
          peerPoses :=
            mapSet s.peerPoses fromId ⟨m.pos.getD [], m.rot.getD []⟩ },
        none)
    else (s, none)
  else (s, none)

/-- `DrawingSync.handleMessage` (sync.js lines 595-697): the guard
`if (!data || !data.type) return;` then the switch. -/
def handleMessage (cfg : SyncCfg) (s : SyncSt) (data : Option Msg)
    (fromId : JsStr) : SyncSt × Option JsErr :=
  match data with
  | none => (s, none)
  | some m =>
    match m.type with
    | none => (s, none)
    | some ty =>
      if ty.isEmpty then (s, none)
      else dispatchMessage cfg s m fromId ty

/-- The per-frame blend factor `this._lerpAlpha = 0.25`. -/
def lerpAlpha : ℝ := 0.25

/-- `DrawingSync.lerpPhysicsBodies` (sync.js lines 580-592), acting on
the table of tracked mesh positions (`physicsWorld.bodies` entries with a
`meshRef`): returns immediately for a host or with no targets, otherwise
lerps each targeted mesh position toward its target by `lerpAlpha`. -/
def lerpPhysicsBodies (s : SyncSt) (meshes : List (JsStr × V3)) :
    List (JsStr × V3) :=
  if s.isHost || s.lerpTargets.isEmpty then meshes
  else
    s.lerpTargets.foldl
      (fun ms p =>
        match mapGet ms p.1 with
        | none => ms
        | some q => mapSet ms p.1 (q.lerp p.2.pos lerpAlpha))
      meshes

/-- `n` repeated per-frame calls of `lerpPhysicsBodies`. -/
def lerpRun (s : SyncSt) (meshes : List (JsStr × V3)) : ℕ → List (JsStr × V3)
  | 0 => meshes
  | n + 1 => lerpPhysicsBodies s (lerpRun s meshes n)

/-- Modelled from the spec: `THREE.Quaternion.slerp` is not part of this
repository; per the spec, each per-frame slerp application moves the
orientation a fixed fraction `alpha` of the way to the target, so the
residual angle to the target contracts to `(1 - alpha)` of itself. -/
def slerpAngleStep (theta alpha : ℝ) : ℝ := (1 - alpha) * theta

/-- `n` repeated slerp applications on the residual angle. -/
def slerpAngleRun (theta alpha : ℝ) : ℕ → ℝ
  | 0 => theta
  | n + 1 => slerpAngleStep (slerpAngleRun theta alpha n) alpha

/-!
Spec-side formulations for the C1 geometry: the arithmetic mean of the
points and the mean of the distances to a point, written with `List.sum`
to compare against the accumulation loops of `endStroke`.
-/

def vecMean (ps : List V3) : V3 :=
  ⟨(ps.map V3.x).sum / (ps.length : ℝ),
   (ps.map V3.y).sum / (ps.length : ℝ),
   (ps.map V3.z).sum / (ps.length : ℝ)⟩

def distMean (ps : List V3) (c : V3) : ℝ :=
  (ps.map (fun p => dist3 p c)).sum / (ps.length : ℝ)

theorem foldl_v3add_eq (ps : List V3) (a : V3) :
    ps.foldl V3.add a =
      ⟨a.x + (ps.map V3.x).sum, a.y + (ps.map V3.y).sum,
       a.z + (ps.map V3.z).sum⟩ := by
  induction ps generalizing a with
  | nil => simp
  | cons p rest ih =>
    simp only [List.foldl_cons, ih, List.map_cons, List.sum_cons]
    simp [V3.add]
    refine ⟨by ring, by ring, by ring⟩

theorem centroid_eq_vecMean (ps : List V3) : centroid ps = vecMean ps := by
  unfold centroid vecMean
  rw [foldl_v3add_eq]
  simp [V3.zero, V3.smul]
  refine ⟨by ring, by ring, by ring⟩

theorem foldl_dist_eq (ps : List V3) (c : V3) (a : ℝ) :
    ps.foldl (fun acc p => acc + dist3 p c) a =
      a + (ps.map (fun p => dist3 p c)).sum := by
  induction ps generalizing a with
  | nil => simp
  | cons p rest ih => simp [ih]; ring

theorem meanRadius_eq_distMean (ps : List V3) (c : V3) :
    meanRadius ps c = distMean ps c := by
  unfold meanRadius distMean
  rw [foldl_dist_eq]
  simp

theorem dot_of_perp_normalize (v n : V3) (h : v.dot n = 0) :
    (v.normalize).dot n = 0 := by
  unfold V3.normalize
  split
  · exact h
  · unfold V3.dot V3.smul at *
    simp only []
    calc 1 / v.len * v.x * n.x + 1 / v.len * v.y * n.y + 1 / v.len * v.z * n.z
        = 1 / v.len * (v.x * n.x + v.y * n.y + v.z * n.z) := by ring
      _ = 0 := by rw [h]; ring

theorem cross_dot_left (a b : V3) : (V3.cross a b).dot a = 0 := by
  unfold V3.cross V3.dot; ring

theorem tangentOf_perp (n : V3) : (tangentOf n).dot n = 0 := by
  unfold tangentOf
  exact dot_of_perp_normalize _ _ (cross_dot_left n (upFor n))

theorem bitangentOf_perp (n : V3) : (bitangentOf n).dot n = 0 := by
  unfold bitangentOf
  exact dot_of_perp_normalize _ _ (cross_dot_left n (tangentOf n))

theorem circlePoint_in_plane (c : V3) (r : ℝ) (t b n : V3) (i : ℕ)
    (ht : t.dot n = 0) (hb : b.dot n = 0) :
    ((circlePoint c r t b i).sub c).dot n = 0 := by
  unfold circlePoint V3.add V3.sub V3.smul V3.dot at *
  simp only []
  linear_combination
    (Real.cos ((i : ℝ) / (circleSegments : ℝ) * (2 * Real.pi)) * r) * ht +
    (Real.sin ((i : ℝ) / (circleSegments : ℝ) * (2 * Real.pi)) * r) * hb

theorem circlePoints_length (c : V3) (r : ℝ) (t b : V3) :
    (circlePoints c r t b).length = circleSegments + 1 := by
  unfold circlePoints
  simp

theorem circlePoint_zero (c : V3) (r : ℝ) (t b : V3) :
    circlePoint c r t b 0 = c.add (V3.smul r t) := by
  unfold circlePoint
  norm_num
  simp [V3.add, V3.smul]

theorem circlePoint_full (c : V3) (r : ℝ) (t b : V3) :
    circlePoint c r t b circleSegments = c.add (V3.smul r t) := by
  unfold circlePoint circleSegments
  norm_num [Real.cos_two_pi, Real.sin_two_pi]
  simp [V3.add, V3.smul]

theorem circlePoints_head (c : V3) (r : ℝ) (t b : V3) :
    (circlePoints c r t b).headI = circlePoint c r t b 0 := by
  unfold circlePoints
  rw [show circleSegments + 1 = 48 + 1 from rfl, List.range_succ_eq_map]
  rfl

theorem circlePoints_getLast (c : V3) (r : ℝ) (t b : V3) :
    (circlePoints c r t b).getLastI = circlePoint c r t b 48 := by
  unfold circlePoints
  rw [List.getLastI_eq_getLast?]
  rw [show circleSegments + 1 = 48 + 1 from rfl, List.range_succ, List.map_append]
  rw [show List.map (circlePoint c r t b) [48] = [circlePoint c r t b 48] from rfl]
  rw [List.getLast?_concat]

theorem circlePoints_closed (c : V3) (r : ℝ) (t b : V3) :
    (circlePoints c r t b).headI = (circlePoints c r t b).getLastI := by
  rw [circlePoints_head, circlePoints_getLast, circlePoint_zero]
  rw [show (48 : ℕ) = circleSegments from rfl, circlePoint_full]

/-- The stroke emitted by the ring branch of `endStroke`. -/
def ringStrokeOf (s : RecState) : Stroke :=
  let c := centroid s.activePoints
  let r := meanRadius s.activePoints c
  let n := fitNormal s.activePoints c
  { meshId := some (s.activeMeshId.getD s.nextMeshId),
    points := circlePoints c r (tangentOf n) (bitangentOf n),
    color := s.colorHex, id := s.activeStrokeId, isRing := true,
    center := some c, radius := r }

theorem endStroke_ring_event (s : RecState) (h3 : ¬ s.activePoints.length < 3)
    (hr : ringCond s.activePoints) :
    (endStroke s).2 = StrokeEvent.complete (ringStrokeOf s) := by
  unfold endStroke ringStrokeOf
  rw [if_neg h3, if_pos hr]

theorem endStroke_nonring_event (s : RecState)
    (h3 : ¬ s.activePoints.length < 3) (hnr : ¬ ringCond s.activePoints) :
    (endStroke s).2 = StrokeEvent.complete
      { meshId := s.activeMeshId, points := s.activePoints,
        color := s.colorHex, id := s.activeStrokeId, isRing := false,
        center := none, radius := 0 } := by
  unfold endStroke
  rw [if_neg h3, if_neg hnr]

/-- The content of claim C1, as a predicate on the recorder state. -/
def C1Prop (s : RecState) : Prop :=
  ((∃ st, (endStroke s).2 = StrokeEvent.complete st ∧ st.isRing = true) ↔
    (dist3 s.activePoints.headI s.activePoints.getLastI < 0.10 ∧
      6 ≤ s.activePoints.length)) ∧
  (∀ st, (endStroke s).2 = StrokeEvent.complete st → st.isRing = true →
    st.center = some (vecMean s.activePoints) ∧
    st.radius = distMean s.activePoints (vecMean s.activePoints) ∧
    st.points =
      circlePoints (vecMean s.activePoints)
        (distMean s.activePoints (vecMean s.activePoints))
        (tangentOf (fitNormal s.activePoints (vecMean s.activePoints)))
        (bitangentOf (fitNormal s.activePoints (vecMean s.activePoints))) ∧
    st.points.length = circleSegments + 1 ∧
    st.points.headI = st.points.getLastI ∧
    ∀ p ∈ st.points,
      ((p.sub (vecMean s.activePoints)).dot
        (fitNormal s.activePoints (vecMean s.activePoints))) = 0)

/-- Claim C1: for every finalized local stroke with at least 3 accepted
points, `endStroke` classifies it as a ring iff the first-to-last
distance is below 0.10 and there are at least 6 points; a ring's emitted
center is the arithmetic mean of the accepted points, its radius the mean
distance to that center, and its point list the 48-segment resampled
closed circle lying in the fitted plane. -/
theorem endStroke_ring_classification (s : RecState)
    (h3 : 3 ≤ s.activePoints.length) : C1Prop s := by
  have hn3 : ¬ s.activePoints.length < 3 := by omega
  by_cases hr : ringCond s.activePoints
  · have hev := endStroke_ring_event s hn3 hr
    constructor
    · rw [hev]
      constructor
      · intro _; exact hr
      · intro _; exact ⟨ringStrokeOf s, rfl, rfl⟩
    · intro st hst _
      rw [hev] at hst
      cases hst
      have hc := centroid_eq_vecMean s.activePoints
      have hm := meanRadius_eq_distMean s.activePoints (centroid s.activePoints)
      simp only [ringStrokeOf]
      refine ⟨by rw [hc], by rw [hm, hc], by rw [hm, hc],
        circlePoints_length _ _ _ _, circlePoints_closed _ _ _ _, ?_⟩
      rw [← hc]
      intro p hp
      unfold circlePoints at hp
      obtain ⟨i, _, hip⟩ := List.mem_map.mp hp
      rw [← hip]
      exact circlePoint_in_plane _ _ _ _ _ i (tangentOf_perp _) (bitangentOf_perp _)
  · have hev := endStroke_nonring_event s hn3 hr
    constructor
    · rw [hev]
      constructor
      · rintro ⟨st, hst, hring⟩
        cases hst
        cases hring
      · intro h; exact absurd h hr
    · intro st hst hring
      rw [hev] at hst
      cases hst
      cases hring

def c1state : RecState :=
  { activePoints := [⟨0, 0, 0⟩, ⟨1, 0, 0⟩, ⟨0, 1, 0⟩],
    activeStrokeId := some "w1", activeMeshId := none,
    completedStrokes := [], sceneMeshes := [], nextMeshId := 0,
    colorHex := "#c0c0c0", tubeRadius := 0.024 }

theorem endStroke_ring_classification_witness :
    3 ≤ c1state.activePoints.length ∧ C1Prop c1state :=
  ⟨by norm_num [c1state],
   endStroke_ring_classification c1state (by norm_num [c1state])⟩

/-- The content of claim C9, as a predicate on the recorder state. -/
def C9Prop (s : RecState) : Prop :=
  (endStroke s).2 = StrokeEvent.cancel s.activeStrokeId ∧
  (endStroke s).1.completedStrokes = s.completedStrokes ∧
  (endStroke s).1.activeMeshId = none ∧
  (endStroke s).1.activePoints = [] ∧
  ∀ mi, s.activeMeshId = some mi → mi ∉ (endStroke s).1.sceneMeshes

/-- Claim C9: ending a stroke while fewer than 3 points were accepted
discards it — nothing joins the completed collection, the active mesh
leaves the scene — and returns a `stroke:cancel` event carrying the
active stroke id. -/
theorem endStroke_short_cancel (s : RecState)
    (h : s.activePoints.length < 3) : C9Prop s := by
  unfold C9Prop endStroke
  rw [if_pos h]
  refine ⟨rfl, rfl, rfl, rfl, ?_⟩
  intro mi hmi
  simp [removeMesh, hmi, List.mem_filter]

def c9state : RecState :=
  { activePoints := [⟨0, 0, 0⟩, ⟨1 / 100, 0, 0⟩],
    activeStrokeId := some "s9", activeMeshId := some 7,
    completedStrokes := [], sceneMeshes := [7], nextMeshId := 8,
    colorHex := "#ffd700", tubeRadius := 0.024 }

theorem endStroke_short_cancel_witness :
    c9state.activePoints.length < 3 ∧ C9Prop c9state :=
  ⟨by norm_num [c9state], endStroke_short_cancel c9state (by norm_num [c9state])⟩

theorem normalize_zero : V3.zero.normalize = V3.zero := by
  unfold V3.normalize V3.len V3.normSq V3.zero
  norm_num

theorem normalize_pos_x (s : ℝ) (hs : 0 < s) :
    (V3.mk s 0 0).normalize = ⟨1, 0, 0⟩ := by
  unfold V3.normalize V3.len V3.normSq
  have h1 : Real.sqrt (s ^ 2 + 0 ^ 2 + 0 ^ 2) = s := by
    rw [show s ^ 2 + 0 ^ 2 + 0 ^ 2 = s ^ 2 by ring, Real.sqrt_sq hs.le]
  simp only [h1]
  rw [if_neg hs.ne']
  unfold V3.smul
  field_simp

/-- The content of the (amended) claim C8. -/
def C8Prop (s : RecState) : Prop :=
  fitNormal s.activePoints (centroid s.activePoints) = ⟨0, 0, 1⟩ ∧
  ∃ st, (endStroke s).2 = StrokeEvent.complete st ∧ st.isRing = true ∧
    st.points.length = circleSegments + 1 ∧
    ∀ p ∈ st.points,
      ((p.sub (centroid s.activePoints)).dot (⟨0, 0, 1⟩ : V3)) = 0

/-- Claim C8 (amended): when the summed consecutive cross products of a
ring-classified stroke are exactly zero, the guarded `normalize` leaves
the zero vector, the fallback axis `(0,0,1)` is substituted, and ring
finalization completes with the resampled circle lying in that default
plane.  (A near-zero but nonzero sum instead normalizes to a unit vector
and the fallback does not fire — see the counterexample.) -/
theorem endStroke_zero_normal_fallback (s : RecState)
    (h3 : 3 ≤ s.activePoints.length) (hr : ringCond s.activePoints)
    (hdeg : crossSum s.activePoints (centroid s.activePoints) = V3.zero) :
    C8Prop s := by
  have hn3 : ¬ s.activePoints.length < 3 := by omega
  have hfit : fitNormal s.activePoints (centroid s.activePoints) = ⟨0, 0, 1⟩ := by
    unfold fitNormal
    rw [hdeg, normalize_zero]
    rw [if_pos (by unfold V3.normSq V3.zero; norm_num)]
  refine ⟨hfit, ringStrokeOf s, endStroke_ring_event s hn3 hr, rfl, ?_, ?_⟩
  · exact circlePoints_length _ _ _ _
  · intro p hp
    have hpts : (ringStrokeOf s).points =
        circlePoints (centroid s.activePoints)
          (meanRadius s.activePoints (centroid s.activePoints))
          (tangentOf (fitNormal s.activePoints (centroid s.activePoints)))
          (bitangentOf (fitNormal s.activePoints (centroid s.activePoints))) := rfl
    rw [hpts] at hp
    unfold circlePoints at hp
    obtain ⟨i, _, hip⟩ := List.mem_map.mp hp
    rw [← hip]
    have ht := tangentOf_perp (fitNormal s.activePoints (centroid s.activePoints))
    have hb := bitangentOf_perp (fitNormal s.activePoints (centroid s.activePoints))
    nth_rewrite 2 [hfit] at ht
    nth_rewrite 2 [hfit] at hb
    exact circlePoint_in_plane _ _ _ _ _ i ht hb

/-- A collinear out-and-back closed stroke: every accumulated cross
product vanishes exactly. -/
def c8degState : RecState :=
  { activePoints :=
      [⟨0, 0, 0⟩, ⟨0, 1, 0⟩, ⟨0, 2, 0⟩, ⟨0, 3, 0⟩, ⟨0, 2, 0⟩, ⟨0, 1, 0⟩,
        ⟨0, 0, 0⟩],
    activeStrokeId := some "s8", activeMeshId := some 3,
    completedStrokes := [], sceneMeshes := [3], nextMeshId := 4,
    colorHex := "#b87333", tubeRadius := 0.024 }

theorem endStroke_zero_normal_fallback_witness :
    (3 ≤ c8degState.activePoints.length ∧ ringCond c8degState.activePoints ∧
      crossSum c8degState.activePoints (centroid c8degState.activePoints) =
        V3.zero) ∧
    C8Prop c8degState := by
  have h3 : 3 ≤ c8degState.activePoints.length := by norm_num [c8degState]
  have hr : ringCond c8degState.activePoints := by
    unfold ringCond c8degState
    norm_num [dist3, V3.sub, V3.len, V3.normSq, List.getLastI, Real.sqrt_zero]
  have hdeg : crossSum c8degState.activePoints
      (centroid c8degState.activePoints) = V3.zero := by
    norm_num [crossSum, centroid, c8degState, V3.add, V3.sub, V3.smul,
      V3.cross, V3.zero]
  exact ⟨⟨h3, hr, hdeg⟩, endStroke_zero_normal_fallback c8degState h3 hr hdeg⟩

/-- A near-degenerate (but not exactly degenerate) ring: a thin sliver
in the x = 0 plane whose accumulated cross product is `(1/250, 0, 0)` —
tiny, yet `normalize` turns it into the unit vector `(1,0,0)` and the
fallback axis is NOT substituted. -/
def c8badPoints : List V3 :=
  [⟨0, 0, 0⟩, ⟨0, 1, 0⟩, ⟨0, 2, 0⟩, ⟨0, 3, 0⟩, ⟨0, 2, 1 / 1000⟩,
    ⟨0, 1, 1 / 1000⟩, ⟨0, 0, 0⟩]

/-- Counterexample to claim C8 as stated: this stroke is ring-classified
and its summed cross-product normal is near zero before normalization
(squared length 1/62500 < 0.001), yet `endStroke` does not substitute the
default axis `(0,0,1)`: the fitted normal comes out as `(1,0,0)`. -/
theorem endStroke_near_zero_normal_not_replaced :
    ringCond c8badPoints ∧
    (crossSum c8badPoints (centroid c8badPoints)).normSq < 0.001 ∧
    fitNormal c8badPoints (centroid c8badPoints) ≠ ⟨0, 0, 1⟩ := by
  have hcs : crossSum c8badPoints (centroid c8badPoints) = ⟨1 / 250, 0, 0⟩ := by
    norm_num [crossSum, centroid, c8badPoints, V3.add, V3.sub, V3.smul,
      V3.cross, V3.zero]
  refine ⟨?_, ?_, ?_⟩
  · unfold ringCond c8badPoints
    norm_num [dist3, V3.sub, V3.len, V3.normSq, List.getLastI, Real.sqrt_zero]
  · rw [hcs]
    unfold V3.normSq
    norm_num
  · unfold fitNormal
    rw [hcs, normalize_pos_x (1 / 250) (by norm_num)]
    rw [if_neg (by unfold V3.normSq; norm_num)]
    intro h
    have := congrArg V3.x h
    norm_num at this

/-! Association-list lemmas for the JS `Map` model. -/

theorem mapGet_mapSet_self {κ α : Type} [DecidableEq κ]
    (m : List (κ × α)) (k : κ) (v : α) : mapGet (mapSet m k v) k = some v := by
  unfold mapGet mapSet
  by_cases h : m.any (fun p => p.1 = k)
  · rw [if_pos h]
    induction m with
    | nil => simp at h
    | cons p rest ih =>
      by_cases hp : p.1 = k
      · simp [List.find?, hp]
      · have hrest : rest.any (fun q => q.1 = k) := by
          rcases List.any_eq_true.mp h with ⟨q, hq, hqk⟩
          rcases List.mem_cons.mp hq with rfl | hq'
          · exact absurd (of_decide_eq_true hqk) hp
          · exact List.any_eq_true.mpr ⟨q, hq', hqk⟩
        simpa [List.find?, hp] using ih hrest
  · rw [if_neg h]
    induction m with
    | nil => simp [List.find?]
    | cons p rest ih =>
      have hp : ¬ p.1 = k := fun hh =>
        h (List.any_eq_true.mpr ⟨p, List.mem_cons_self _ _, decide_eq_true hh⟩)
      have hrest : ¬ rest.any (fun q => q.1 = k) := fun hh => by
        rcases List.any_eq_true.mp hh with ⟨q, hq, hqk⟩
        exact h (List.any_eq_true.mpr ⟨q, List.mem_cons_of_mem _ hq, hqk⟩)
      simpa [List.find?, hp] using ih hrest

theorem mapGet_of_mem_nodup {κ α : Type} [DecidableEq κ]
    (m : List (κ × α)) (k : κ) (v : α) (hmem : (k, v) ∈ m)
    (hnd : (m.map Prod.fst).Nodup) : mapGet m k = some v := by
  induction m with
  | nil => simp at hmem
  | cons p rest ih =>
    rcases List.mem_cons.mp hmem with rfl | hmem'
    · unfold mapGet
      simp [List.find?]
    · have hp : ¬ p.1 = k := by
        intro hh
        have hk : k ∈ rest.map Prod.fst :=
          List.mem_map.mpr ⟨(k, v), hmem', rfl⟩
        rw [List.map_cons] at hnd
        exact (List.nodup_cons.mp hnd).1 (hh ▸ hk)
      have hnd' : (rest.map Prod.fst).Nodup := by
        rw [List.map_cons] at hnd
        exact (List.nodup_cons.mp hnd).2
      unfold mapGet at *
      simpa [List.find?, hp] using ih hmem' hnd'

theorem mapSet_keys_nodup {κ α : Type} [DecidableEq κ]
    (m : List (κ × α)) (k : κ) (v : α)
    (hnd : (m.map Prod.fst).Nodup) :
    ((mapSet m k v).map Prod.fst).Nodup := by
  unfold mapSet
  by_cases h : m.any (fun p => p.1 = k)
  · rw [if_pos h]
    have : (m.map (fun p => if p.1 = k then (k, v) else p)).map Prod.fst =
        m.map Prod.fst := by
      rw [List.map_map]
      apply List.map_congr_left
      intro p _
      by_cases hp : p.1 = k <;> simp [hp]
    rw [this]; exact hnd
  · rw [if_neg h]
    rw [List.map_append]
    rw [List.nodup_append]
    refine ⟨hnd, List.nodup_singleton _, ?_⟩
    intro a ha hb
    simp at hb
    subst hb
    rcases List.mem_map.mp ha with ⟨p, hp, hpk⟩
    exact h (List.any_eq_true.mpr ⟨p, hp, decide_eq_true hpk⟩)

/-- `tryLinkToNearest` (via `linkRings`) touches only the joint lists. -/
theorem tryLink_preserve (w : PhysicsWorld) (cid : String) (cc : V3) (cr : ℝ) :
    (tryLinkToNearest w cid cc cr).bodies = w.bodies ∧
    (tryLinkToNearest w cid cc cr).ringCount = w.ringCount ∧
    (tryLinkToNearest w cid cc cr).initialized = w.initialized := by
  unfold tryLinkToNearest
  split
  · exact ⟨rfl, rfl, rfl⟩
  · split
    · exact ⟨rfl, rfl, rfl⟩
    · unfold linkRings
      split
      · exact ⟨rfl, rfl, rfl⟩
      · exact ⟨rfl, rfl, rfl⟩

/-- Where `addRing` puts its entry. -/
theorem addRing_lookup (w : PhysicsWorld) (id : String) (c : V3) (r : ℝ)
    (m : Option ℕ) (rot : Option Quat) (tr : ℝ) (fx : Bool)
    (hini : w.initialized = true) :
    mapGet (addRing w id c r m rot tr fx).bodies id =
      some (addRingEntry (fx || w.ringCount == 0) c r m rot tr) := by
  unfold addRing
  rw [if_pos hini]
  by_cases hsf : (fx || w.ringCount == 0) = true
  · rw [hsf]
    simp only [if_pos rfl]
    exact mapGet_mapSet_self _ _ _
  · rw [Bool.not_eq_true] at hsf
    rw [hsf]
    simp only [Bool.false_eq_true, if_false]
    rw [(tryLink_preserve _ _ _ _).1]
    exact mapGet_mapSet_self _ _ _

/-- The content of the (amended) claim C2. -/
def C2Prop (w : PhysicsWorld) (id : String) (c : V3) (r : ℝ) (m : Option ℕ)
    (rot : Option Quat) (tr : ℝ) (fx : Bool) : Prop :=
  ∃ e, mapGet (addRing w id c r m rot tr fx).bodies id = some e ∧
    ((fx = true ∨ w.ringCount = 0) →
      e.desc.isFixed = true ∧ e.isFirst = true) ∧
    (fx = false → w.ringCount ≠ 0 →
      e.desc.isFixed = false ∧ e.desc.linearDamping = 1.5 ∧
      e.desc.angularDamping = 1.5 ∧ e.desc.ccdEnabled = true ∧
      e.isFirst = false)

/-- Claim C2 (amended): on an initialized world, `addRing` creates the
first registered ring as a fixed body, and every subsequently registered
ring whose `isFixed` override is not set as a dynamic body with linear
and angular damping 1.5 and continuous collision detection; a later ring
registered with `isFixed = true` is, however, also created fixed (the
repository's demo scene does this for the top ring of its second
column). -/
theorem addRing_anchor_then_dynamic (w : PhysicsWorld) (id : String) (c : V3)
    (r : ℝ) (m : Option ℕ) (rot : Option Quat) (tr : ℝ) (fx : Bool)
    (hini : w.initialized = true) : C2Prop w id c r m rot tr fx := by
  refine ⟨addRingEntry (fx || w.ringCount == 0) c r m rot tr,
    addRing_lookup w id c r m rot tr fx hini, ?_, ?_⟩
  · rintro (hfx | h0)
    · rw [hfx]
      simp [addRingEntry, addRingDesc]
    · rw [h0]
      simp [addRingEntry, addRingDesc]
  · intro hfx h0
    rw [hfx]
    have hb : (false || w.ringCount == 0) = false := by
      simp
      omega
    rw [hb]
    simp [addRingEntry, addRingDesc]

def c2w0 : PhysicsWorld :=
  { initialized := true, bodies := [], joints := [], impulseJoints := [],
    ringCount := 0 }

theorem addRing_anchor_then_dynamic_witness :
    c2w0.initialized = true ∧
    C2Prop c2w0 "r1" ⟨0, 3, 0⟩ (1 / 2) none none (1 / 20) false :=
  ⟨rfl, addRing_anchor_then_dynamic c2w0 "r1" ⟨0, 3, 0⟩ (1 / 2) none none
    (1 / 20) false rfl⟩

def c2w1 : PhysicsWorld :=
  addRing c2w0 "a" ⟨0, 3, 0⟩ (1 / 2) none none (1 / 20) false

def c2w2 : PhysicsWorld :=
  addRing c2w1 "b" ⟨0, 2, 0⟩ (1 / 2) none none (1 / 20) true

/-- Counterexample to claim C2 as stated: the second ring registered in
this session (`"b"`, passed with the `isFixed` override as the demo scene
does for the anchor of its second column) is created as a fixed body,
not as a dynamic one. -/
theorem addRing_second_ring_fixed_counterexample :
    Option.map (fun e => e.desc.isFixed) (mapGet c2w2.bodies "b") =
      some true := by
  have h1 : c2w1.initialized = true := rfl
  have h2 := addRing_lookup c2w1 "b" ⟨0, 2, 0⟩ (1 / 2) none none (1 / 20) true h1
  rw [show c2w2 = addRing c2w1 "b" ⟨0, 2, 0⟩ (1 / 2) none none (1 / 20) true
    from rfl]
  rw [h2]
  simp [addRingEntry, addRingDesc]

/-- The content of claim C4. -/
def C4Prop (w : PhysicsWorld) : Prop :=
  clear (clear w) = clear w ∧
  (clear w).bodies = PhysicsWorld.fresh.bodies ∧
  (clear w).joints = PhysicsWorld.fresh.joints ∧
  (clear w).ringCount = PhysicsWorld.fresh.ringCount ∧
  ∀ id c r m rot tr,
    ∃ e, mapGet (addRing (clear w) id c r m rot tr false).bodies id = some e ∧
      e.desc.isFixed = true ∧ e.isFirst = true

/-- Claim C4: `clear()` is idempotent, it leaves the body table, joint
list and anchor counter identical to a freshly constructed world, and the
next ring registered after a `clear()` again becomes a fixed anchor. -/
theorem clear_idempotent_fresh (w : PhysicsWorld)
    (hini : w.initialized = true) : C4Prop w := by
  refine ⟨?_, rfl, rfl, rfl, ?_⟩
  · unfold clear
    simp
  · intro id c r m rot tr
    have hini' : (clear w).initialized = true := hini
    refine ⟨addRingEntry (false || (clear w).ringCount == 0) c r m rot tr,
      addRing_lookup (clear w) id c r m rot tr false hini', ?_⟩
    have h0 : (clear w).ringCount = 0 := rfl
    rw [h0]
    simp [addRingEntry, addRingDesc]

def c4w0 : PhysicsWorld :=
  { initialized := true,
    bodies := [("x", addRingEntry true ⟨0, 1, 0⟩ 1 none none (1 / 10))],
    joints := [⟨⟨0, 0, 0⟩, ⟨0, 0, 0⟩⟩], impulseJoints := [], ringCount := 3 }

theorem clear_idempotent_fresh_witness :
    c4w0.initialized = true ∧ C4Prop c4w0 :=
  ⟨rfl, clear_idempotent_fresh c4w0 rfl⟩

/-- Candidate test applied by `scanStep` (everything except list
membership). -/
def cand (cid : String) (cc : V3) (cr : ℝ) (p : String × RingEntry) : Prop :=
  ¬ (p.1 = cid ∨ p.2.isPrimitive = true) ∧ colOk cid p.1 ∧
  dist3 p.2.center cc < (p.2.radius + cr) * 5

/-- "Eligible" in the sense of claim C3: an existing non-primitive body
other than the child, not excluded by column filtering, within the
capture radius. -/
def eligiblePair (bodies : List (String × RingEntry)) (cid : String)
    (cc : V3) (cr : ℝ) (p : String × RingEntry) : Prop :=
  p ∈ bodies ∧ p.1 ≠ cid ∧ p.2.isPrimitive = false ∧ colOk cid p.1 ∧
  dist3 p.2.center cc < (p.2.radius + cr) * 5

theorem eligiblePair_iff (bodies : List (String × RingEntry)) (cid : String)
    (cc : V3) (cr : ℝ) (p : String × RingEntry) :
    eligiblePair bodies cid cc cr p ↔ p ∈ bodies ∧ cand cid cc cr p := by
  unfold eligiblePair cand
  constructor
  · rintro ⟨hm, h1, h2, h3, h4⟩
    refine ⟨hm, ?_, h3, h4⟩
    rintro (hc | hc)
    · exact h1 hc
    · rw [h2] at hc; cases hc
  · rintro ⟨hm, h1, h2, h3⟩
    push_neg at h1
    exact ⟨hm, h1.1, by simpa using h1.2, h2, h3⟩

theorem scanStep_cases (cid : String) (cc : V3) (cr : ℝ)
    (acc : Option (String × ℝ)) (p : String × RingEntry) :
    (scanStep cid cc cr acc p = acc ∧
      (cand cid cc cr p →
        ∃ j0 d0, acc = some (j0, d0) ∧ d0 ≤ dist3 p.2.center cc)) ∨
    (scanStep cid cc cr acc p = some (p.1, dist3 p.2.center cc) ∧
      cand cid cc cr p ∧
      ∀ j0 d0, acc = some (j0, d0) → dist3 p.2.center cc < d0) := by
  unfold scanStep
  by_cases h1 : p.1 = cid ∨ p.2.isPrimitive = true
  · left
    rw [if_pos h1]
    exact ⟨rfl, fun hc => absurd h1 hc.1⟩
  · rw [if_neg h1]
    by_cases h2 : colOk cid p.1
    · rw [if_pos h2]
      by_cases h3 : dist3 p.2.center cc < (p.2.radius + cr) * 5 ∧
          (match acc with | none => True | some a => dist3 p.2.center cc < a.2)
      · right
        rw [if_pos h3]
        refine ⟨rfl, ⟨h1, h2, h3.1⟩, ?_⟩
        intro j0 d0 hacc
        have := h3.2
        rw [hacc] at this
        exact this
      · left
        rw [if_neg h3]
        refine ⟨rfl, ?_⟩
        rintro ⟨_, _, hd⟩
        cases acc with
        | none => exact absurd ⟨hd, trivial⟩ h3
        | some a =>
          refine ⟨a.1, a.2, rfl, ?_⟩
          by_contra hlt
          push_neg at hlt
          exact h3 ⟨hd, hlt⟩
    · left
      rw [if_neg h2]
      exact ⟨rfl, fun hc => absurd hc.2.1 h2⟩

theorem scan_fold_spec (cid : String) (cc : V3) (cr : ℝ)
    (l : List (String × RingEntry)) (acc : Option (String × ℝ)) :
    (l.foldl (scanStep cid cc cr) acc = none →
      acc = none ∧ ∀ p ∈ l, ¬ cand cid cc cr p) ∧
    (∀ i d, l.foldl (scanStep cid cc cr) acc = some (i, d) →
      ((∃ e, (i, e) ∈ l ∧ cand cid cc cr (i, e) ∧ d = dist3 e.center cc) ∨
        acc = some (i, d)) ∧
      (∀ q ∈ l, cand cid cc cr q → d ≤ dist3 q.2.center cc) ∧
      (∀ j0 d0, acc = some (j0, d0) → d ≤ d0)) := by
  induction l generalizing acc with
  | nil =>
    refine ⟨fun h => ⟨h, by simp⟩, ?_⟩
    intro i d h
    simp only [List.foldl_nil] at h
    refine ⟨Or.inr h, by simp, ?_⟩
    intro j0 d0 hacc
    rw [h] at hacc
    cases hacc
    exact le_rfl
  | cons p rest ih =>
    constructor
    · intro h
      simp only [List.foldl_cons] at h
      obtain ⟨hstep, hrest⟩ := (ih (scanStep cid cc cr acc p)).1 h
      rcases scanStep_cases cid cc cr acc p with ⟨heq, himp⟩ | ⟨heq, _, _⟩
      · rw [heq] at hstep
        refine ⟨hstep, ?_⟩
        intro q hq
        rcases List.mem_cons.mp hq with rfl | hq'
        · intro hc
          obtain ⟨j0, d0, hacc, _⟩ := himp hc
          rw [hstep] at hacc
          cases hacc
        · exact hrest q hq'
      · rw [heq] at hstep
        cases hstep
    · intro i d h
      simp only [List.foldl_cons] at h
      obtain ⟨horig, hmin, hbound⟩ := ((ih (scanStep cid cc cr acc p)).2 i d) h
      rcases scanStep_cases cid cc cr acc p with ⟨heq, himp⟩ | ⟨heq, hcand, hstrict⟩
      · rw [heq] at horig hbound
        refine ⟨?_, ?_, hbound⟩
        · rcases horig with ⟨e, he, hce, hde⟩ | hacc
          · exact Or.inl ⟨e, List.mem_cons_of_mem _ he, hce, hde⟩
          · exact Or.inr hacc
        · intro q hq hcq
          rcases List.mem_cons.mp hq with rfl | hq'
          · obtain ⟨j0, d0, hacc, hd0⟩ := himp hcq
            exact le_trans (hbound j0 d0 hacc) hd0
          · exact hmin q hq' hcq
      · rw [heq] at horig hbound
        have hdle : d ≤ dist3 p.2.center cc := hbound _ _ rfl
        refine ⟨?_, ?_, ?_⟩
        · rcases horig with ⟨e, he, hce, hde⟩ | hacc
          · exact Or.inl ⟨e, List.mem_cons_of_mem _ he, hce, hde⟩
          · cases hacc
            exact Or.inl ⟨p.2, List.mem_cons_self _ _, hcand, rfl⟩
        · intro q hq hcq
          rcases List.mem_cons.mp hq with rfl | hq'
          · exact hdle
          · exact hmin q hq' hcq
        · intro j0 d0 hacc
          exact le_trans hdle (le_of_lt (hstrict j0 d0 hacc))

theorem nearestScan_none_iff (bodies : List (String × RingEntry))
    (cid : String) (cc : V3) (cr : ℝ) :
    nearestScan bodies cid cc cr = none ↔
      ∀ p ∈ bodies, ¬ cand cid cc cr p := by
  constructor
  · intro h
    exact ((scan_fold_spec cid cc cr bodies none).1 h).2
  · intro h
    cases hres : nearestScan bodies cid cc cr with
    | none => rfl
    | some a =>
      obtain ⟨horig, _, _⟩ :=
        (scan_fold_spec cid cc cr bodies none).2 a.1 a.2 (by simpa using hres)
      rcases horig with ⟨e, he, hce, _⟩ | hacc
      · exact absurd hce (h (a.1, e) he)
      · cases hacc

theorem nearestScan_some_spec (bodies : List (String × RingEntry))
    (cid : String) (cc : V3) (cr : ℝ) (i : String) (d : ℝ)
    (h : nearestScan bodies cid cc cr = some (i, d)) :
    (∃ e, (i, e) ∈ bodies ∧ cand cid cc cr (i, e) ∧ d = dist3 e.center cc) ∧
    ∀ q ∈ bodies, cand cid cc cr q → d ≤ dist3 q.2.center cc := by
  obtain ⟨horig, hmin, _⟩ := (scan_fold_spec cid cc cr bodies none).2 i d h
  rcases horig with horig | hacc
  · exact ⟨horig, hmin⟩
  · cases hacc

/-- Behaviour of `tryLinkToNearest` on a table with unique keys holding
the child entry `ce`: no joint without an eligible body, otherwise
exactly one spherical joint whose parent is a nearest eligible body,
anchored at the parent's inner-bottom and the child's inner-top point. -/
theorem tryLink_spec (w : PhysicsWorld) (cid : String) (cc : V3) (cr : ℝ)
    (hnd : (w.bodies.map Prod.fst).Nodup) (ce : RingEntry)
    (hce : mapGet w.bodies cid = some ce) :
    ((¬ ∃ p, eligiblePair w.bodies cid cc cr p) →
      tryLinkToNearest w cid cc cr = w) ∧
    ((∃ p, eligiblePair w.bodies cid cc cr p) →
      ∃ pid pe, eligiblePair w.bodies cid cc cr (pid, pe) ∧
        (∀ q, eligiblePair w.bodies cid cc cr q →
          dist3 pe.center cc ≤ dist3 q.2.center cc) ∧
        (pid.isEmpty = false →
          tryLinkToNearest w cid cc cr =
            { w with
                impulseJoints := w.impulseJoints ++
                  [⟨⟨⟨0, -(pe.radius - pe.tubeRadius), 0⟩,
                     ⟨0, ce.radius - ce.tubeRadius, 0⟩⟩, pid, cid⟩],
                joints := w.joints ++
                  [⟨⟨0, -(pe.radius - pe.tubeRadius), 0⟩,
                    ⟨0, ce.radius - ce.tubeRadius, 0⟩⟩] }) ∧
        (pid.isEmpty = true → tryLinkToNearest w cid cc cr = w)) := by
  constructor
  · intro hno
    have hallnot : ∀ p ∈ w.bodies, ¬ cand cid cc cr p := by
      intro p hp hc
      exact hno ⟨p, (eligiblePair_iff _ _ _ _ _).mpr ⟨hp, hc⟩⟩
    unfold tryLinkToNearest
    rw [(nearestScan_none_iff _ _ _ _).mpr hallnot]
  · intro hex
    cases hres : nearestScan w.bodies cid cc cr with
    | none =>
      obtain ⟨p, hp⟩ := hex
      obtain ⟨hpmem, hpc⟩ := (eligiblePair_iff _ _ _ _ _).mp hp
      exact absurd hpc ((nearestScan_none_iff _ _ _ _).mp hres p hpmem)
    | some a =>
      obtain ⟨⟨pe, hpe_mem, hpe_cand, hd⟩, hmin⟩ :=
        nearestScan_some_spec w.bodies cid cc cr a.1 a.2
          (by rw [hres])
      refine ⟨a.1, pe, (eligiblePair_iff _ _ _ _ _).mpr ⟨hpe_mem, hpe_cand⟩,
        ?_, ?_, ?_⟩
      · intro q hq
        obtain ⟨hqmem, hqc⟩ := (eligiblePair_iff _ _ _ _ _).mp hq
        rw [← hd]
        exact hmin q hqmem hqc
      · intro hne
        have hpar : mapGet w.bodies a.1 = some pe :=
          mapGet_of_mem_nodup _ _ _ hpe_mem hnd
        unfold tryLinkToNearest
        rw [hres]
        show (if (a.1).isEmpty = true then w else linkRings w a.1 cid) = _
        rw [hne]
        simp only [Bool.false_eq_true, if_false]
        unfold linkRings
        simp only [hpar, hce]
      · intro hemp
        unfold tryLinkToNearest
        rw [hres]
        show (if (a.1).isEmpty = true then w else linkRings w a.1 cid) = w
        rw [hemp, if_pos rfl]

/-- The content of claim C3.  `w'` is the state after registering the
new dynamic ring. -/
def C3Prop (w : PhysicsWorld) (cid : String) (c : V3) (r : ℝ) (m : Option ℕ)
    (rot : Option Quat) (tr : ℝ) : Prop :=
  (∃ ce, mapGet (addRing w cid c r m rot tr false).bodies cid = some ce ∧
    ce.radius = r ∧ ce.tubeRadius = tr) ∧
  ((¬ ∃ p, eligiblePair (addRing w cid c r m rot tr false).bodies cid c r p) →
    (addRing w cid c r m rot tr false).joints = w.joints ∧
    (addRing w cid c r m rot tr false).impulseJoints = w.impulseJoints) ∧
  ((∃ p, eligiblePair (addRing w cid c r m rot tr false).bodies cid c r p) →
    ∃ pid pe,
      eligiblePair (addRing w cid c r m rot tr false).bodies cid c r (pid, pe) ∧
      (∀ q, eligiblePair (addRing w cid c r m rot tr false).bodies cid c r q →
        dist3 pe.center c ≤ dist3 q.2.center c) ∧
      (pid.isEmpty = false →
        (addRing w cid c r m rot tr false).impulseJoints = w.impulseJoints ++
          [⟨⟨⟨0, -(pe.radius - pe.tubeRadius), 0⟩, ⟨0, r - tr, 0⟩⟩, pid, cid⟩] ∧
        (addRing w cid c r m rot tr false).joints = w.joints ++
          [⟨⟨0, -(pe.radius - pe.tubeRadius), 0⟩, ⟨0, r - tr, 0⟩⟩]) ∧
      (pid.isEmpty = true →
        (addRing w cid c r m rot tr false).joints = w.joints ∧
        (addRing w cid c r m rot tr false).impulseJoints = w.impulseJoints))

/-- Claim C3 (amended): registering a dynamic ring after the first
creates at most one joint; when some eligible body (non-primitive, not
column-excluded, within `5 * (r1 + r2)` of the new center) exists, the
scan selects a nearest such body, and if its identifier is a non-empty
string, exactly one spherical joint is created with that body as parent,
anchored at the parent's inner-bottom point and the child's inner-top
point; when the winning identifier is the empty string (falsy in JS, so
`if (nearestId)` skips the link) or when no eligible body exists, no
joint is created. -/
theorem addRing_links_nearest (w : PhysicsWorld) (cid : String) (c : V3)
    (r : ℝ) (m : Option ℕ) (rot : Option Quat) (tr : ℝ)
    (hini : w.initialized = true) (hnf : w.ringCount ≠ 0)
    (hnd : (w.bodies.map Prod.fst).Nodup) : C3Prop w cid c r m rot tr := by
  have hsf : (false || w.ringCount == 0) = false := by
    simp
    omega
  have hw' : addRing w cid c r m rot tr false =
      tryLinkToNearest
        { w with
            ringCount := w.ringCount + 1,
            bodies := mapSet w.bodies cid
              (addRingEntry false c r m rot tr) } cid c r := by
    unfold addRing
    rw [if_pos hini, hsf]
    rfl
  set w2 : PhysicsWorld :=
    { w with
        ringCount := w.ringCount + 1,
        bodies := mapSet w.bodies cid (addRingEntry false c r m rot tr) }
    with hw2
  have hnd2 : (w2.bodies.map Prod.fst).Nodup := mapSet_keys_nodup _ _ _ hnd
  have hce : mapGet w2.bodies cid = some (addRingEntry false c r m rot tr) :=
    mapGet_mapSet_self _ _ _
  have hspec := tryLink_spec w2 cid c r hnd2 _ hce
  have hbod : (addRing w cid c r m rot tr false).bodies = w2.bodies := by
    rw [hw']
    exact (tryLink_preserve _ _ _ _).1
  have hcr : (addRingEntry false c r m rot tr).radius = r := rfl
  have hct : (addRingEntry false c r m rot tr).tubeRadius = tr := rfl
  refine ⟨⟨addRingEntry false c r m rot tr, by rw [hbod]; exact hce, rfl, rfl⟩,
    ?_, ?_⟩
  · intro hno
    rw [hbod] at hno
    have heq := hspec.1 hno
    rw [hw', heq]
    exact ⟨rfl, rfl⟩
  · intro hex
    rw [hbod] at hex
    obtain ⟨pid, pe, helig, hmin, hlink, hskip⟩ := hspec.2 hex
    refine ⟨pid, pe, by rw [hbod]; exact helig, ?_, ?_, ?_⟩
    · intro q hq
      rw [hbod] at hq
      exact hmin q hq
    · intro hne
      have heq := hlink hne
      constructor
      · rw [hw', heq]
        rfl
      · rw [hw', heq]
        rfl
    · intro hemp
      have heq := hskip hemp
      rw [hw', heq]
      exact ⟨rfl, rfl⟩

def c3w0 : PhysicsWorld :=
  { initialized := true,
    bodies := [("A", addRingEntry true ⟨0, 3, 0⟩ (1 / 2) none none (1 / 20))],
    joints := [], impulseJoints := [], ringCount := 1 }

theorem addRing_links_nearest_witness :
    (c3w0.initialized = true ∧ c3w0.ringCount ≠ 0 ∧
      (c3w0.bodies.map Prod.fst).Nodup) ∧
    C3Prop c3w0 "B" ⟨0, 21 / 10, 0⟩ (1 / 2) none none (1 / 20) :=
  ⟨⟨rfl, by norm_num [c3w0], by simp [c3w0]⟩,
   addRing_links_nearest c3w0 "B" ⟨0, 21 / 10, 0⟩ (1 / 2) none none (1 / 20)
     rfl (by norm_num [c3w0]) (by simp [c3w0])⟩

/-!
Counterexample material for claim C3 as stated: a nearest eligible body
keyed by the empty string.  Body keys are arbitrary strings (a
`stroke:complete` message with `id: ""` registers a body under the key
`""`), and the final `if (nearestId)` of `tryLinkToNearest`
(src/physics.js line 159) is falsy for the empty string, so no joint is
created even though an eligible body exists.
-/

def c3entryE : RingEntry :=
  addRingEntry true ⟨0, 3, 0⟩ (1 / 2) none none (1 / 20)

def c3entryB : RingEntry :=
  addRingEntry false ⟨0, 2, 0⟩ (1 / 2) none none (1 / 20)

def c3wE : PhysicsWorld :=
  { initialized := true, bodies := [("", c3entryE)],
    joints := [], impulseJoints := [], ringCount := 1 }

def c3wE2 : PhysicsWorld :=
  { initialized := true, bodies := [("", c3entryE), ("B", c3entryB)],
    joints := [], impulseJoints := [], ringCount := 2 }

/-- Counterexample to claim C3 as stated: in an initialized world whose
only body is an eligible ring keyed by the empty string, registering a
dynamic ring creates no joint at all, although an eligible body exists —
the nearest id `""` fails the JS truthiness guard `if (nearestId)`. -/
theorem addRing_empty_id_no_joint_counterexample :
    eligiblePair
      (addRing c3wE "B" ⟨0, 2, 0⟩ (1 / 2) none none (1 / 20) false).bodies
      "B" ⟨0, 2, 0⟩ (1 / 2) ("", c3entryE) ∧
    (addRing c3wE "B" ⟨0, 2, 0⟩ (1 / 2) none none (1 / 20) false).joints
      = [] ∧
    (addRing c3wE "B" ⟨0, 2, 0⟩ (1 / 2) none none (1 / 20) false).impulseJoints
      = [] := by
  have h1 : addRing c3wE "B" ⟨0, 2, 0⟩ (1 / 2) none none (1 / 20) false =
      tryLinkToNearest c3wE2 "B" ⟨0, 2, 0⟩ (1 / 2) := rfl
  have hcol : colOk "B" "" := trivial
  have hdist : dist3 c3entryE.center ⟨0, 2, 0⟩ = 1 := by
    show dist3 ⟨0, 3, 0⟩ ⟨0, 2, 0⟩ = 1
    unfold dist3 V3.sub V3.len V3.normSq
    norm_num [Real.sqrt_one]
  have hnd : (c3wE2.bodies.map Prod.fst).Nodup := by decide
  have hce : mapGet c3wE2.bodies "B" = some c3entryB := rfl
  have helig : eligiblePair c3wE2.bodies "B" ⟨0, 2, 0⟩ (1 / 2)
      ("", c3entryE) := by
    refine ⟨?_, by decide, rfl, hcol, ?_⟩
    · show ("", c3entryE) ∈ [("", c3entryE), ("B", c3entryB)]
      exact List.mem_cons_self _ _
    · show dist3 c3entryE.center ⟨0, 2, 0⟩ < (c3entryE.radius + 1 / 2) * 5
      rw [hdist, show c3entryE.radius = 1 / 2 from rfl]
      norm_num
  have hskip : tryLinkToNearest c3wE2 "B" ⟨0, 2, 0⟩ (1 / 2) = c3wE2 := by
    obtain ⟨pid, pe, hel, hmin, hlink, hsk⟩ :=
      (tryLink_spec c3wE2 "B" ⟨0, 2, 0⟩ (1 / 2) hnd c3entryB hce).2
        ⟨("", c3entryE), helig⟩
    have hpid : pid = "" := by
      obtain ⟨hmem, hne, _, _, _⟩ := hel
      have hmem2 : (pid, pe) ∈ [("", c3entryE), ("B", c3entryB)] := hmem
      rcases List.mem_cons.mp hmem2 with h | h
      · exact congrArg Prod.fst h
      · rcases List.mem_cons.mp h with h2 | h2
        · exact absurd (congrArg Prod.fst h2) hne
        · exact absurd h2 (List.not_mem_nil _)
    exact hsk (by rw [hpid]; rfl)
  refine ⟨?_, ?_, ?_⟩
  · rw [h1, hskip]
    exact helig
  · rw [h1, hskip]
    rfl
  · rw [h1, hskip]
    rfl

/-! Sync-layer theorems (claims C5, C6, C7, C10). -/

/-- How the `physics:sync` branch leaves the host flag: demoted exactly
when the message carries a `bodies` field. -/
theorem physicsSyncBranch_isHost (s : SyncSt) (m : Msg) :
    (physicsSyncBranch s m).1.isHost = (s.isHost && !m.bodies.isSome) := by
  unfold physicsSyncBranch
  cases hb : m.bodies with
  | none => cases hh : s.isHost <;> simp [hh]
  | some bs => cases hh : s.isHost <;> simp [hh]

theorem strokeCompleteBranch_isHost (cfg : SyncCfg) (s : SyncSt)
    (d : DrawerLite) (m : Msg) :
    (strokeCompleteBranch cfg s d m).1.isHost = s.isHost := by
  unfold strokeCompleteBranch
  simp only []
  repeat' split
  all_goals rfl

theorem objectTransformBranch_isHost (s : SyncSt) (d : DrawerLite) (m : Msg) :
    (objectTransformBranch s d m).1.isHost = s.isHost := by
  unfold objectTransformBranch
  repeat' split
  all_goals rfl

theorem dispatchMessage_host_mono (cfg : SyncCfg) (s : SyncSt) (m : Msg)
    (f : JsStr) (ty : String) (h : s.isHost = false) :
    (dispatchMessage cfg s m f ty).1.isHost = false := by
  unfold dispatchMessage
  by_cases h1 : ty = "stroke:start"
  · rw [if_pos h1]; exact h
  rw [if_neg h1]
  by_cases h2 : ty = "stroke:point"
  · rw [if_pos h2]
    cases hd : s.drawer <;> exact h
  rw [if_neg h2]
  by_cases h3 : ty = "stroke:complete"
  · rw [if_pos h3]
    cases hd : s.drawer with
    | none => exact h
    | some d =>
      show (strokeCompleteBranch cfg s d m).1.isHost = false
      rw [strokeCompleteBranch_isHost]; exact h
  rw [if_neg h3]
  by_cases h4 : ty = "stroke:cancel"
  · rw [if_pos h4]
    cases hd : s.drawer <;> exact h
  rw [if_neg h4]
  by_cases h5 : ty = "stroke:undo"
  · rw [if_pos h5]
    cases htr : truthyStr m.id <;> cases hd : s.drawer <;> exact h
  rw [if_neg h5]
  by_cases h6 : ty = "stroke:clear"
  · rw [if_pos h6]; exact h
  rw [if_neg h6]
  by_cases h7 : ty = "physics:sync"
  · rw [if_pos h7, physicsSyncBranch_isHost, h]; rfl
  rw [if_neg h7]
  by_cases h8 : ty = "primitive:create"
  · rw [if_pos h8]
    cases hp : m.position <;> cases hd : s.drawer <;> exact h
  rw [if_neg h8]
  by_cases h9 : ty = "object:transform"
  · rw [if_pos h9]
    cases hd : s.drawer with
    | none => exact h
    | some d =>
      show (objectTransformBranch s d m).1.isHost = false
      rw [objectTransformBranch_isHost]; exact h
  rw [if_neg h9]
  by_cases h10 : ty = "toggle:physics"
  · rw [if_pos h10]
    cases hcp : cfg.hasPhysics <;> exact h
  rw [if_neg h10]
  by_cases h11 : ty = "toggle:gravity"
  · rw [if_pos h11]
    cases hcp : cfg.hasPhysics <;> exact h
  rw [if_neg h11]
  by_cases h12 : ty = "user:pose"
  · rw [if_pos h12]
    cases hup : (m.pos.isSome && m.rot.isSome && truthyStr f) <;> exact h
  rw [if_neg h12]
  exact h

/-- Reduction of `handleMessage` on a present message. -/
theorem handleMessage_some (cfg : SyncCfg) (s : SyncSt) (m : Msg)
    (f : JsStr) :
    handleMessage cfg s (some m) f =
      (match m.type with
       | none => (s, none)
       | some ty =>
         if ty.isEmpty then (s, none) else dispatchMessage cfg s m f ty) := rfl

/-- No handled message ever raises the host flag: once false it stays
false. -/
theorem handleMessage_host_mono (cfg : SyncCfg) (s : SyncSt)
    (data : Option Msg) (f : JsStr) (h : s.isHost = false) :
    (handleMessage cfg s data f).1.isHost = false := by
  cases data with
  | none => exact h
  | some m =>
    rw [handleMessage_some]
    cases m.type with
    | none => exact h
    | some ty =>
      show (if ty.isEmpty = true then ((s, none) : SyncSt × Option JsErr)
        else dispatchMessage cfg s m f ty).1.isHost = false
      cases he : ty.isEmpty
      · exact dispatchMessage_host_mono cfg s m f ty h
      · exact h

def knownMsgTypes : List String :=
  ["stroke:start", "stroke:point", "stroke:complete", "stroke:cancel",
   "stroke:undo", "stroke:clear", "physics:sync", "primitive:create",
   "object:transform", "toggle:physics", "toggle:gravity", "user:pose"]

/-- Claim C7 (amended): a message whose `type` is absent or not one of
the handled kinds is ignored — `handleMessage` returns with the state
unchanged and no error.  (A known-typed message missing an expected field
can instead throw: see the counterexample, where a `stroke:point` without
its `point` field propagates a TypeError.) -/
theorem handleMessage_unknown_ignored (cfg : SyncCfg) (s : SyncSt) (m : Msg)
    (f : JsStr) (h : ∀ t, m.type = some t → t ∉ knownMsgTypes) :
    handleMessage cfg s (some m) f = (s, none) := by
  rw [handleMessage_some]
  cases htype : m.type with
  | none => rfl
  | some ty =>
    have hty := h ty htype
    simp only [knownMsgTypes, List.mem_cons, List.mem_singleton, not_or] at hty
    obtain ⟨h1, h2, h3, h4, h5, h6, h7, h8, h9, h10, h11, h12⟩ :=
      by simpa using hty
    show (if ty.isEmpty = true then ((s, none) : SyncSt × Option JsErr)
      else dispatchMessage cfg s m f ty) = (s, none)
    cases hempty : ty.isEmpty
    · show dispatchMessage cfg s m f ty = (s, none)
      unfold dispatchMessage
      rw [if_neg h1, if_neg h2, if_neg h3, if_neg h4, if_neg h5, if_neg h6,
        if_neg h7, if_neg h8, if_neg h9, if_neg h10, if_neg h11, if_neg h12]
    · rfl

def c7drawer : DrawerLite :=
  { completedStrokes := [], remoteStrokes := [], tubeRadius := 0.024,
    nextUuid := 0 }

def c7s : SyncSt :=
  { isHost := true, lerpTargets := [], peerPoses := [],
    drawer := some c7drawer, physTrace := [] }

def c7cfg : SyncCfg := { hasPhysics := true, physInitialized := true }

def c7umsg : Msg := { type := some "mystery:event" }

theorem handleMessage_unknown_ignored_witness :
    (∀ t, c7umsg.type = some t → t ∉ knownMsgTypes) ∧
    handleMessage c7cfg c7s (some c7umsg) none = (c7s, none) :=
  ⟨fun t ht => by
      rw [show t = "mystery:event" from (Option.some.inj ht).symm]
      decide,
   handleMessage_unknown_ignored c7cfg c7s c7umsg none
     (fun t ht => by
       rw [show t = "mystery:event" from (Option.some.inj ht).symm]
       decide)⟩

def c7badMsg : Msg := { type := some "stroke:point", id := some "s1" }

/-- Counterexample to claim C7 as stated: a known-typed `stroke:point`
message that is missing its `point` field does not return silently —
with a drawer wired (as in the application), `point[0]` inside
`updateRemoteActiveStroke` raises a TypeError that propagates out of
`handleMessage`. -/
theorem handleMessage_missing_point_throws :
    (handleMessage c7cfg c7s (some c7badMsg) none).2 = some JsErr.typeErr := by
  rfl

theorem dispatchMessage_sync (cfg : SyncCfg) (s : SyncSt) (m : Msg)
    (f : JsStr) :
    dispatchMessage cfg s m f "physics:sync" = physicsSyncBranch s m := by
  unfold dispatchMessage
  rw [if_neg (by decide), if_neg (by decide), if_neg (by decide),
    if_neg (by decide), if_neg (by decide), if_neg (by decide), if_pos rfl]

/-- Dispatch of a `physics:sync` message. -/
theorem handleMessage_sync_eq (cfg : SyncCfg) (s : SyncSt) (m : Msg)
    (f : JsStr) (ht : m.type = some "physics:sync") :
    handleMessage cfg s (some m) f = physicsSyncBranch s m := by
  rw [handleMessage_some]
  cases htype : m.type with
  | none => rw [htype] at ht; cases ht
  | some ty =>
    rw [htype] at ht
    have hty := Option.some.inj ht
    subst hty
    show dispatchMessage cfg s m f "physics:sync" = physicsSyncBranch s m
    exact dispatchMessage_sync cfg s m f

/-- Claim C10: a `physics:sync` message without a `bodies` field leaves
the receiver entirely unchanged — no demotion, no lerp-target change, no
error. -/
theorem handleMessage_sync_no_bodies (cfg : SyncCfg) (s : SyncSt) (m : Msg)
    (f : JsStr) (ht : m.type = some "physics:sync") (hb : m.bodies = none) :
    handleMessage cfg s (some m) f = (s, none) := by
  rw [handleMessage_sync_eq cfg s m f ht]
  unfold physicsSyncBranch
  rw [hb]
  cases hh : s.isHost <;> simp [hh]

def c10msg : Msg := { type := some "physics:sync" }

theorem handleMessage_sync_no_bodies_witness :
    (c10msg.type = some "physics:sync" ∧ c10msg.bodies = none) ∧
    handleMessage c7cfg c7s (some c10msg) (some "peerB") = (c7s, none) :=
  ⟨⟨rfl, rfl⟩,
   handleMessage_sync_no_bodies c7cfg c7s c10msg (some "peerB") rfl rfl⟩

/-- Counterexample to claim C5 as stated: receiving a `physics:sync`
message from another peer that lacks a `bodies` field does NOT demote the
receiver — `getIsHost()` still reports true afterwards. -/
theorem sync_without_bodies_keeps_host_counterexample :
    c7s.isHost = true ∧
    (handleMessage c7cfg c7s (some c10msg) (some "peerB")).1.isHost = true := by
  constructor
  · rfl
  · rw [handleMessage_sync_eq c7cfg c7s c10msg (some "peerB") rfl,
      physicsSyncBranch_isHost]
    rfl

/-- Handling a sequence of messages in order, threading the state (as the
`app-message` event handler does). -/
def runMsgs (cfg : SyncCfg) (s : SyncSt)
    (msgs : List (Option Msg × JsStr)) : SyncSt :=
  msgs.foldl (fun st mf => (handleMessage cfg st mf.1 mf.2).1) s

theorem runMsgs_host_mono (cfg : SyncCfg) (l : List (Option Msg × JsStr))
    (st : SyncSt) (h : st.isHost = false) :
    (runMsgs cfg st l).isHost = false := by
  induction l generalizing st with
  | nil => exact h
  | cons a rest ih =>
    exact ih _ (handleMessage_host_mono cfg st a.1 a.2 h)

/-- Claim C5 (amended): once a peer handles a `physics:sync` message that
carries a `bodies` field, `getIsHost()` is false, and it stays false
under every subsequently handled message for the rest of the session. -/
theorem sync_demotion_permanent (cfg : SyncCfg) (s : SyncSt)
    (pre suf : List (Option Msg × JsStr)) (m : Msg) (f : JsStr)
    (ht : m.type = some "physics:sync") (hb : m.bodies.isSome = true) :
    (runMsgs cfg s (pre ++ (some m, f) :: suf)).isHost = false := by
  unfold runMsgs
  rw [List.foldl_append, List.foldl_cons]
  apply runMsgs_host_mono
  rw [handleMessage_sync_eq cfg _ m f ht, physicsSyncBranch_isHost, hb]
  simp

def c5syncMsg : Msg :=
  { type := some "physics:sync",
    bodies := some [⟨some "b1", some [0, 1, 0], some [0, 0, 0, 1]⟩] }

theorem sync_demotion_permanent_witness :
    (c5syncMsg.type = some "physics:sync" ∧ c5syncMsg.bodies.isSome = true) ∧
    (runMsgs c7cfg c7s
      ([] ++ (some c5syncMsg, some "peerB") :: [(some c7umsg, none)])).isHost =
      false :=
  ⟨⟨rfl, rfl⟩,
   sync_demotion_permanent c7cfg c7s [] [(some c7umsg, none)] c5syncMsg
     (some "peerB") rfl rfl⟩

/-! Interpolation convergence (claim C6). -/

theorem V3.lerp_self (p : V3) (a : ℝ) : p.lerp p a = p := by
  refine V3.ext ?_ ?_ ?_ <;> simp [V3.lerp, V3.add, V3.smul, V3.sub]

/-- One quarter-blend lerp toward the target contracts the distance by
exactly 3/4. -/
theorem dist3_lerp_quarter (p t : V3) :
    dist3 (p.lerp t lerpAlpha) t = (3 / 4) * dist3 p t := by
  have key : ((p.lerp t lerpAlpha).sub t).normSq = (9 / 16) * ((p.sub t).normSq) := by
    simp only [V3.lerp, V3.add, V3.smul, V3.sub, V3.normSq, lerpAlpha]
    ring
  unfold dist3 V3.len
  rw [key, Real.sqrt_mul (by norm_num : (0 : ℝ) ≤ 9 / 16)]
  rw [show Real.sqrt (9 / 16) = 3 / 4 by
    rw [show (9 / 16 : ℝ) = (3 / 4) ^ 2 by norm_num,
      Real.sqrt_sq (by norm_num : (0 : ℝ) ≤ 3 / 4)]]

theorem dist3_pos_of_ne (p t : V3) (h : p ≠ t) : 0 < dist3 p t := by
  unfold dist3 V3.len
  apply Real.sqrt_pos.mpr
  rcases lt_or_eq_of_le (V3.normSq_nonneg (p.sub t)) with hlt | heq
  · exact hlt
  · exfalso
    apply h
    have h0 : (p.sub t).normSq = 0 := heq.symm
    simp only [V3.normSq, V3.sub] at h0
    refine V3.ext ?_ ?_ ?_ <;>
      nlinarith [sq_nonneg (p.x - t.x), sq_nonneg (p.y - t.y),
        sq_nonneg (p.z - t.z)]

/-- The mesh position after `n` per-frame lerp calls. -/
def lerpIter (p t : V3) : ℕ → V3
  | 0 => p
  | n + 1 => (lerpIter p t n).lerp t lerpAlpha

theorem dist3_lerpIter (p t : V3) (n : ℕ) :
    dist3 (lerpIter p t n) t = (3 / 4) ^ n * dist3 p t := by
  induction n with
  | zero => simp [lerpIter]
  | succ n ih =>
    show dist3 ((lerpIter p t n).lerp t lerpAlpha) t = _
    rw [dist3_lerp_quarter, ih]
    ring

theorem lerpIter_conv (p t : V3) (ε : ℝ) (hε : 0 < ε) :
    ∃ n, dist3 (lerpIter p t n) t < ε := by
  rcases eq_or_lt_of_le (dist3_nonneg p t) with h0 | hpos
  · refine ⟨0, ?_⟩
    have : dist3 (lerpIter p t 0) t = dist3 p t := rfl
    rw [this, ← h0]
    exact hε
  · obtain ⟨n, hn⟩ :=
      exists_pow_lt_of_lt_one (div_pos hε hpos) (by norm_num : (3 : ℝ) / 4 < 1)
    refine ⟨n, ?_⟩
    rw [dist3_lerpIter]
    calc (3 / 4 : ℝ) ^ n * dist3 p t
        < ε / dist3 p t * dist3 p t := by
          exact mul_lt_mul_of_pos_right hn hpos
      _ = ε := div_mul_cancel₀ ε (ne_of_gt hpos)

theorem mapGet_single {κ α : Type} [DecidableEq κ] (k : κ) (v : α) :
    mapGet [(k, v)] k = some v :=
  mapGet_mapSet_self [] k v

theorem mapSet_single {κ α : Type} [DecidableEq κ] (k : κ) (v v' : α) :
    mapSet [(k, v)] k v' = [(k, v')] := by
  unfold mapSet
  simp

/-- One call of `lerpPhysicsBodies` on a non-host with a single target
and its tracked mesh. -/
theorem lerpPhysicsBodies_single (s : SyncSt) (bid : JsStr) (tgt : Target)
    (p : V3) (hh : s.isHost = false) (htg : s.lerpTargets = [(bid, tgt)]) :
    lerpPhysicsBodies s [(bid, p)] = [(bid, p.lerp tgt.pos lerpAlpha)] := by
  unfold lerpPhysicsBodies
  rw [hh, htg]
  simp only [List.isEmpty_cons, Bool.false_or, Bool.false_eq_true, if_false,
    List.foldl_cons, List.foldl_nil]
  rw [mapGet_single]
  exact mapSet_single _ _ _

theorem lerpRun_single (s : SyncSt) (bid : JsStr) (tgt : Target) (p : V3)
    (hh : s.isHost = false) (htg : s.lerpTargets = [(bid, tgt)]) (n : ℕ) :
    lerpRun s [(bid, p)] n = [(bid, lerpIter p tgt.pos n)] := by
  induction n with
  | zero => rfl
  | succ n ih =>
    show lerpPhysicsBodies s (lerpRun s [(bid, p)] n) = _
    rw [ih]
    exact lerpPhysicsBodies_single s bid tgt _ hh htg

/-- The content of the (amended) claim C6. -/
def C6Prop (s : SyncSt) (bid : JsStr) (tgt : Target) (p : V3) : Prop :=
  lerpPhysicsBodies s [(bid, p)] = [(bid, p.lerp tgt.pos lerpAlpha)] ∧
  (∀ q : V3, dist3 (q.lerp tgt.pos lerpAlpha) tgt.pos =
    (3 / 4) * dist3 q tgt.pos) ∧
  dist3 (p.lerp tgt.pos lerpAlpha) tgt.pos < dist3 p tgt.pos ∧
  (∀ n, lerpRun s [(bid, p)] n = [(bid, lerpIter p tgt.pos n)]) ∧
  (∀ n, dist3 (lerpIter p tgt.pos n) tgt.pos =
    (3 / 4) ^ n * dist3 p tgt.pos) ∧
  (∀ ε : ℝ, 0 < ε → ∃ n, dist3 (lerpIter p tgt.pos n) tgt.pos < ε) ∧
  (∀ theta : ℝ, theta ≠ 0 → |slerpAngleStep theta lerpAlpha| < |theta|) ∧
  (∀ theta : ℝ, ∀ ε : ℝ, 0 < ε → ∃ n, |slerpAngleRun theta lerpAlpha n| < ε)

/-- Claim C6 (amended): for a non-host holding a fixed lerp target for a
tracked mesh that is not already at the target position, each call of
`lerpPhysicsBodies` contracts the mesh-to-target distance by exactly 3/4
(hence strictly decreases it), and after finitely many calls the distance
drops below any given positive tolerance; the spec-modelled slerp residual
angle contracts the same way.  (When the mesh already sits exactly at the
target the distance stays 0 and does not strictly decrease — see the
counterexample.) -/
theorem lerp_convergence (s : SyncSt) (bid : JsStr) (tgt : Target) (p : V3)
    (hh : s.isHost = false) (htg : s.lerpTargets = [(bid, tgt)])
    (hne : p ≠ tgt.pos) : C6Prop s bid tgt p := by
  have hq : ∀ q : V3, dist3 (q.lerp tgt.pos lerpAlpha) tgt.pos =
      (3 / 4) * dist3 q tgt.pos := fun q => dist3_lerp_quarter q tgt.pos
  have hpos := dist3_pos_of_ne p tgt.pos hne
  refine ⟨lerpPhysicsBodies_single s bid tgt p hh htg, hq, ?_,
    lerpRun_single s bid tgt p hh htg, dist3_lerpIter p tgt.pos,
    lerpIter_conv p tgt.pos, ?_, ?_⟩
  · rw [hq p]
    linarith
  · intro theta hth
    unfold slerpAngleStep lerpAlpha
    rw [abs_mul]
    rw [show |(1 : ℝ) - 0.25| = 3 / 4 by norm_num]
    have : 0 < |theta| := abs_pos.mpr hth
    linarith
  · intro theta ε hε
    have hrun : ∀ n, slerpAngleRun theta lerpAlpha n = (3 / 4) ^ n * theta := by
      intro n
      induction n with
      | zero => simp [slerpAngleRun]
      | succ n ih =>
        show slerpAngleStep (slerpAngleRun theta lerpAlpha n) lerpAlpha = _
        rw [ih]
        unfold slerpAngleStep lerpAlpha
        ring
    rcases eq_or_ne theta 0 with h0 | h0
    · exact ⟨0, by simp [slerpAngleRun, h0, hε]⟩
    · have hth : 0 < |theta| := abs_pos.mpr h0
      obtain ⟨n, hn⟩ := exists_pow_lt_of_lt_one (div_pos hε hth)
        (by norm_num : (3 : ℝ) / 4 < 1)
      refine ⟨n, ?_⟩
      rw [hrun n, abs_mul, abs_pow]
      rw [show |(3 : ℝ) / 4| = 3 / 4 by norm_num]
      calc (3 / 4 : ℝ) ^ n * |theta|
          < ε / |theta| * |theta| := mul_lt_mul_of_pos_right hn hth
        _ = ε := div_mul_cancel₀ ε (ne_of_gt hth)

def c6s : SyncSt :=
  { isHost := false,
    lerpTargets := [(some "b", ⟨⟨1, 0, 0⟩, ⟨0, 0, 0, 1⟩⟩)],
    peerPoses := [], drawer := none, physTrace := [] }

theorem lerp_convergence_witness :
    (c6s.isHost = false ∧
      c6s.lerpTargets = [(some "b", ⟨⟨1, 0, 0⟩, ⟨0, 0, 0, 1⟩⟩)] ∧
      (⟨0, 0, 0⟩ : V3) ≠ (⟨1, 0, 0⟩ : V3)) ∧
    C6Prop c6s (some "b") ⟨⟨1, 0, 0⟩, ⟨0, 0, 0, 1⟩⟩ ⟨0, 0, 0⟩ :=
  ⟨⟨rfl, rfl, by
      intro hcon
      have := congrArg V3.x hcon
      norm_num at this⟩,
   lerp_convergence c6s (some "b") ⟨⟨1, 0, 0⟩, ⟨0, 0, 0, 1⟩⟩ ⟨0, 0, 0⟩ rfl rfl
     (by
       intro hcon
       have := congrArg V3.x hcon
       norm_num at this)⟩

def c6sAt : SyncSt :=
  { isHost := false,
    lerpTargets := [(some "b", ⟨⟨0, 0, 0⟩, ⟨0, 0, 0, 1⟩⟩)],
    peerPoses := [], drawer := none, physTrace := [] }

/-- Counterexample to claim C6 as stated: when the tracked mesh already
sits exactly at the lerp target, a `lerpPhysicsBodies` call leaves it in
place and the distance to the target (zero) does not strictly decrease. -/
theorem lerp_at_target_no_strict_decrease :
    lerpPhysicsBodies c6sAt [(some "b", ⟨0, 0, 0⟩)] = [(some "b", ⟨0, 0, 0⟩)] ∧
    ¬ dist3 ((⟨0, 0, 0⟩ : V3).lerp ⟨0, 0, 0⟩ lerpAlpha) ⟨0, 0, 0⟩ <
        dist3 (⟨0, 0, 0⟩ : V3) ⟨0, 0, 0⟩ := by
  constructor
  · rw [lerpPhysicsBodies_single c6sAt (some "b") ⟨⟨0, 0, 0⟩, ⟨0, 0, 0, 1⟩⟩
      ⟨0, 0, 0⟩ rfl rfl]
    rw [V3.lerp_self]
  · rw [V3.lerp_self]
    exact lt_irrefl _

end

end Airdraw
